import Mathlib

set_option maxHeartbeats 1600000
set_option maxRecDepth 4096

/-!
Shallow embedding of the lowering pass found in `src/ir/lowering.rs` and
`src/ir/lowering/env.rs`, together with theorems about its behaviour.

Modelling conventions:
* interned identifiers are modelled by `String` (comparison by equality);
* Rust `BTreeMap`s are modelled by association lists with insert-replace
  semantics (`mapFind?` / `mapInsert` / `mapCollect`); the only map
  iteration performed by the embedded code either feeds a uniqueness check
  or is order-irrelevant, so the list order never influences results;
* `&mut Env` threading is modelled by explicit state passing; operations
  taking `&Env` return no environment;
* `Result` is modelled by `Except LowerErr`; Rust panics (slice indexing,
  `Option::unwrap`, `BTreeMap` indexing) are modelled by the dedicated
  constructor `LowerErr.panicked`, keeping them distinguishable from
  ordinary `bail!` errors;
* datatypes of the external `chalk_parse::ast` and `ir` crates are
  reconstructed from their use sites in the given sources and from the
  specification (the spec declares them external collaborators).
-/

namespace Chalk

abbrev Identifier := String

structure ItemId where
  index : Nat
deriving DecidableEq, Repr

inductive ParameterKind (T : Type) where
  | ty (a : T)
  | lifetime (a : T)
deriving DecidableEq, Repr

inductive PKind where
  | ty
  | lifetime
deriving DecidableEq, Repr

def PKind.str : PKind → String
  | .ty => "type"
  | .lifetime => "lifetime"

def ParameterKind.kind {T : Type} : ParameterKind T → PKind
  | .ty _ => .ty
  | .lifetime _ => .lifetime

abbrev PK := ParameterKind Identifier

def SELF : Identifier := "Self"

/-- Modelled from the spec: `ir::Anonymize` is not among the given sources;
per §4.3 of the spec, "anonymize() strips names, yielding a vector of kind
tags" (a length-preserving map). -/
def anonymize {T : Type} (l : List (ParameterKind T)) : List (ParameterKind Unit) :=
  l.map (fun p => match p with | .ty _ => .ty () | .lifetime _ => .lifetime ())

/-! ### Association-list model of `BTreeMap` -/

def mapFind? {α β : Type} [DecidableEq α] (m : List (α × β)) (k : α) : Option β :=
  match m with
  | [] => none
  | e :: rest => if e.1 = k then some e.2 else mapFind? rest k

/-- Insert-replace: the semantics of `BTreeMap::insert` on the key set. -/
def mapInsert {α β : Type} [DecidableEq α] (m : List (α × β)) (k : α) (v : β) :
    List (α × β) :=
  if (mapFind? m k).isSome then m.map (fun e => if e.1 = k then (k, v) else e)
  else m ++ [(k, v)]

def foldIns {α β : Type} [DecidableEq α] (m : List (α × β)) (l : List (α × β)) :
    List (α × β) :=
  l.foldl (fun m e => mapInsert m e.1 e.2) m

/-- `collect::<BTreeMap<_,_>>()`: repeated insertion starting from empty. -/
def mapCollect {α β : Type} [DecidableEq α] (l : List (α × β)) : List (α × β) :=
  foldIns [] l

def keysOf {α β : Type} (m : List (α × β)) : List α := m.map Prod.fst

def NodupKeys {α β : Type} (m : List (α × β)) : Prop := (keysOf m).Nodup

def addKeys {α : Type} [DecidableEq α] (ks : List α) (l : List α) : List α :=
  l.foldl (fun ks k => if k ∈ ks then ks else ks ++ [k]) ks

/-! ### Errors -/

inductive LowerErr where
  | msg (s : String)
  | invalidTypeName (name : Identifier)
  | notTrait (name : Identifier)
  | cannotApplyTypeParameter (name : Identifier)
  | incorrectNumberOfTypeParameters (name : Identifier) (expected actual : Nat)
  | duplicateLangItem
  | panicked (s : String)
deriving DecidableEq, Repr

/-! ### IR datatypes (reconstructed from use sites and the spec) -/

inductive IrLifetime where
  | var (depth : Nat)
deriving DecidableEq, Repr

inductive TypeName where
  | itemId (id : ItemId)
deriving DecidableEq, Repr

mutual
inductive IrTy where
  | var (depth : Nat)
  | apply (a : IrApplicationTy)
  | projection (p : IrProjectionTy)
  | unselectedProjection (p : IrUnselectedProjectionTy)
  | forAllTy (q : IrQuantifiedTy)

inductive IrApplicationTy where
  | mk (name : TypeName) (parameters : List IrParameter)

inductive IrProjectionTy where
  | mk (associated_ty_id : ItemId) (parameters : List IrParameter)

inductive IrUnselectedProjectionTy where
  | mk (type_name : Identifier) (parameters : List IrParameter)

inductive IrQuantifiedTy where
  | mk (num_binders : Nat) (ty : IrTy)

inductive IrParameter where
  | ty (t : IrTy)
  | lifetime (l : IrLifetime)
end

def IrProjectionTy.associated_ty_id : IrProjectionTy → ItemId
  | .mk i _ => i

def IrProjectionTy.parameters : IrProjectionTy → List IrParameter
  | .mk _ p => p

def IrUnselectedProjectionTy.type_name : IrUnselectedProjectionTy → Identifier
  | .mk n _ => n

def IrUnselectedProjectionTy.parameters : IrUnselectedProjectionTy → List IrParameter
  | .mk _ p => p

/-- `ir::Parameter::ty()`: the type payload, if any. -/
def IrParameter.ty? : IrParameter → Option IrTy
  | .ty t => some t
  | .lifetime _ => none

def IrParameter.kind : IrParameter → PKind
  | .ty _ => .ty
  | .lifetime _ => .lifetime

structure Binders (T : Type) where
  binders : List (ParameterKind Unit)
  value : T
deriving Repr

/-- Modelled from the spec: `ir::Binders::len` counts the binder kinds. -/
def Binders.len {T : Type} (b : Binders T) : Nat := b.binders.length

inductive TypeSort where
  | struct
  | trait
deriving DecidableEq, Repr

structure TypeKind where
  sort : TypeSort
  name : Identifier
  binders : Binders Unit
deriving Repr

structure IrTraitRef where
  trait_id : ItemId
  parameters : List IrParameter

structure IrTraitBound where
  trait_id : ItemId
  args_no_self : List IrParameter

/-- Modelled from the spec (§4.6): `ir::TraitBound::as_trait_ref` combines a
bound with the separately-supplied `Self` type into a `TraitRef` whose
parameters begin with `Self`. -/
def IrTraitBound.as_trait_ref (b : IrTraitBound) (self_ty : IrTy) : IrTraitRef :=
  { trait_id := b.trait_id, parameters := IrParameter.ty self_ty :: b.args_no_self }

structure AssociatedTyInfo where
  id : ItemId
  addl_parameter_kinds : List PK
deriving Repr

/-! ### The lowering environment (`src/ir/lowering/env.rs`) -/

structure Env where
  type_ids : List (Identifier × ItemId)
  type_kinds : List (ItemId × TypeKind)
  associated_ty_infos : List ((ItemId × Identifier) × AssociatedTyInfo)
  parameter_map : List (PK × Nat)
  traits_in_scope : List (ItemId × IrTraitRef)

inductive NameLookup where
  | type (id : ItemId)
  | parameter (depth : Nat)

inductive LifetimeLookup where
  | parameter (depth : Nat)

def Env.empty (type_ids : List (Identifier × ItemId))
    (type_kinds : List (ItemId × TypeKind))
    (associated_ty_infos : List ((ItemId × Identifier) × AssociatedTyInfo)) : Env :=
  { type_ids, type_kinds, associated_ty_infos,
    parameter_map := [], traits_in_scope := [] }

def Env.trait_in_scope (env : Env) (trait_ref : IrTraitRef) : Env :=
  { env with traits_in_scope := mapInsert env.traits_in_scope trait_ref.trait_id trait_ref }

def Env.get_assoc_ty_info (env : Env) (key : ItemId × Identifier) :
    Option AssociatedTyInfo :=
  mapFind? env.associated_ty_infos key

/-- The `candidates` vector computed by `resolve_unselected_projection_ty`:
name-matching associated-type infos whose owning trait is in scope. -/
def unselectedCandidates (env : Env) (ty : IrUnselectedProjectionTy) :
    List (IrTraitRef × ItemId) :=
  (env.associated_ty_infos.filter (fun e => decide (e.1.2 = ty.type_name))).filterMap
    (fun e => (mapFind? env.traits_in_scope e.1.1).map (fun tr => (tr, e.2.id)))

def Env.resolve_unselected_projection_ty (env : Env) (ty : IrUnselectedProjectionTy) :
    Except LowerErr IrProjectionTy :=
  match unselectedCandidates env ty with
  | [(trait_ref, associated_ty_id)] =>
      .ok (.mk associated_ty_id (ty.parameters ++ trait_ref.parameters))
  | _ => .error (.msg ("ambiguous associated ty " ++ ty.type_name))

def Env.lookup (env : Env) (name : Identifier) : Except LowerErr NameLookup :=
  match mapFind? env.parameter_map (ParameterKind.ty name) with
  | some k => .ok (.parameter k)
  | none =>
    match mapFind? env.type_ids name with
    | some id => .ok (.type id)
    | none => .error (.invalidTypeName name)

def Env.lookup_lifetime (env : Env) (name : Identifier) :
    Except LowerErr LifetimeLookup :=
  match mapFind? env.parameter_map (ParameterKind.lifetime name) with
  | some k => .ok (.parameter k)
  | none => .error (.msg ("invalid lifetime name: " ++ name))

/-- `Env::type_kind` indexes `type_kinds`; indexing a `BTreeMap` panics on a
missing key, so the partiality is surfaced as an `Option` here and the panic
is produced at the use sites. -/
def Env.type_kind? (env : Env) (id : ItemId) : Option TypeKind :=
  mapFind? env.type_kinds id

def Env.introduce (env : Env) (binders : List PK) : Except LowerErr Env :=
  let len := binders.length
  let parameter_map :=
    mapCollect ((env.parameter_map.map (fun e => (e.1, e.2 + len)))
      ++ (binders.enum.map (fun e => (e.2, e.1))))
  if parameter_map.length ≠ env.parameter_map.length + len then
    .error (.msg ("duplicate parameters"))
  else
    .ok { env with parameter_map := parameter_map }

def Env.in_binders {T : Type} (env : Env) (binders : List PK)
    (op : Env → Except LowerErr (T × Env)) : Except LowerErr (Binders T) := do
  let env2 ← env.introduce binders
  let (value, _) ← op env2
  pure { binders := anonymize binders, value }

/-! ### Syntactic AST (`chalk_parse::ast`, reconstructed from use sites) -/

inductive Lifetime where
  | id (name : Identifier)
deriving DecidableEq, Repr

mutual
inductive Ty where
  | id (name : Identifier)
  | apply (name : Identifier) (args : List Parameter)
  | projection (proj : ProjectionTy)
  | unselectedProjection (proj : UnselectedProjectionTy)
  | forAllTy (lifetime_names : List Identifier) (ty : Ty)

inductive Parameter where
  | ty (t : Ty)
  | lifetime (l : Lifetime)

inductive ProjectionTy where
  | mk (trait_ref : TraitRef) (name : Identifier) (args : List Parameter)

inductive UnselectedProjectionTy where
  | mk (name : Identifier) (args : List Parameter)

inductive TraitRef where
  | mk (trait_name : Identifier) (args : List Parameter)
end

def ProjectionTy.trait_ref : ProjectionTy → TraitRef
  | .mk tr _ _ => tr

def ProjectionTy.name : ProjectionTy → Identifier
  | .mk _ n _ => n

def ProjectionTy.args : ProjectionTy → List Parameter
  | .mk _ _ a => a

def UnselectedProjectionTy.name : UnselectedProjectionTy → Identifier
  | .mk n _ => n

def UnselectedProjectionTy.args : UnselectedProjectionTy → List Parameter
  | .mk _ a => a

def TraitRef.trait_name : TraitRef → Identifier
  | .mk n _ => n

def TraitRef.args : TraitRef → List Parameter
  | .mk _ a => a

def Parameter.kind : Parameter → PKind
  | .ty _ => .ty
  | .lifetime _ => .lifetime

structure TraitBound where
  trait_name : Identifier
  args_no_self : List Parameter

structure ProjectionEqBound where
  trait_bound : TraitBound
  name : Identifier
  args : List Parameter
  value : Ty

inductive InlineBound where
  | traitBound (b : TraitBound)
  | projectionEqBound (b : ProjectionEqBound)

inductive WhereClause where
  | implemented (trait_ref : TraitRef)
  | projectionEq (projection : ProjectionTy) (ty : Ty)

structure QuantifiedWhereClause where
  parameter_kinds : List PK
  where_clause : WhereClause

inductive DomainGoal where
  | holds (where_clause : WhereClause)
  | normalize (projection : ProjectionTy) (ty : Ty)
  | tyWellFormed (ty : Ty)
  | traitRefWellFormed (trait_ref : TraitRef)
  | tyFromEnv (ty : Ty)
  | traitRefFromEnv (trait_ref : TraitRef)
  | traitInScope (trait_name : Identifier)
  | derefs (source : Ty) (target : Ty)
  | isLocal (ty : Ty)
  | isExternal (ty : Ty)
  | isDeeplyExternal (ty : Ty)
  | localImplAllowed (trait_ref : TraitRef)

inductive LeafGoal where
  | domainGoal (goal : DomainGoal)
  | unifyTys (a b : Ty)
  | unifyLifetimes (a b : Lifetime)

mutual
inductive Goal where
  | forAllG (pks : List PK) (g : Goal)
  | existsG (pks : List PK) (g : Goal)
  | impliesG (hyp : List Clause) (g : Goal)
  | andG (g1 g2 : Goal)
  | notG (g : Goal)
  | leaf (l : LeafGoal)

inductive Clause where
  | mk (parameter_kinds : List PK) (consequence : DomainGoal) (conditions : List Goal)
end

def Clause.parameter_kinds : Clause → List PK
  | .mk pks _ _ => pks

def Clause.consequence : Clause → DomainGoal
  | .mk _ c _ => c

def Clause.conditions : Clause → List Goal
  | .mk _ _ cs => cs

inductive PolarizedTraitRef where
  | positive (tr : TraitRef)
  | negative (tr : TraitRef)

structure TraitFlags where
  auto : Bool
  marker : Bool
  external : Bool
  deref : Bool

structure AssocTyDefn where
  name : Identifier
  parameter_kinds : List PK
  bounds : List InlineBound
  where_clauses : List QuantifiedWhereClause

structure TraitDefn where
  name : Identifier
  parameter_kinds : List PK
  where_clauses : List QuantifiedWhereClause
  assoc_ty_defns : List AssocTyDefn
  flags : TraitFlags

structure AssocTyValue where
  name : Identifier
  parameter_kinds : List PK
  value : Ty

structure Impl where
  parameter_kinds : List PK
  trait_ref : PolarizedTraitRef
  where_clauses : List QuantifiedWhereClause
  assoc_ty_values : List AssocTyValue

/-! ### `LowerParameterMap::all_parameters` and friends

The AST `ParameterKind` carries parsed identifiers; since identifiers are
modelled by their interned string, `LowerParameterKind::lower` is the
identity and is not materialized. -/

def TraitDefn.all_parameters (d : TraitDefn) : List PK :=
  ParameterKind.ty SELF :: d.parameter_kinds

def AssocTyDefn.all_parameters (d : AssocTyDefn) : List PK := d.parameter_kinds

def AssocTyValue.all_parameters (v : AssocTyValue) : List PK := v.parameter_kinds

def Impl.all_parameters (i : Impl) : List PK := i.parameter_kinds

def Clause.all_parameters (c : Clause) : List PK := c.parameter_kinds

/-- Modelled from the spec (§4.3): `ir::ToParameter` turns an anonymized
kind paired with a depth into a variable reference of that kind. -/
def to_parameter : ParameterKind Unit × Nat → IrParameter
  | (.ty _, d) => .ty (.var d)
  | (.lifetime _, d) => .lifetime (.var d)

def TraitDefn.parameter_refs (d : TraitDefn) : List IrParameter :=
  (anonymize d.all_parameters).enum.map (fun e => to_parameter (e.2, e.1))

/-- `LowerTypeKind for TraitDefn`: for the purposes of the type, `Self` is
ignored (only the declared parameters are anonymized). The Rust function
returns `Result` but cannot fail. -/
def TraitDefn.lower_type_kind (d : TraitDefn) : TypeKind :=
  { sort := .trait, name := d.name,
    binders := { binders := anonymize d.parameter_kinds, value := () } }

/-! ### IR where-clauses, domain goals, goals -/

structure IrProjectionEq where
  projection : IrProjectionTy
  ty : IrTy

inductive IrWhereClause where
  | implemented (trait_ref : IrTraitRef)
  | projectionEq (p : IrProjectionEq)

abbrev IrQuantifiedWhereClause := Binders IrWhereClause

structure IrNormalize where
  projection : IrProjectionTy
  ty : IrTy

inductive IrWellFormed where
  | ty (t : IrTy)
  | trait (tr : IrTraitRef)

inductive IrFromEnv where
  | ty (t : IrTy)
  | trait (tr : IrTraitRef)

structure IrDerefs where
  source : IrTy
  target : IrTy

inductive IrDomainGoal where
  | implemented (tr : IrTraitRef)
  | projectionEq (p : IrProjectionEq)
  | normalize (n : IrNormalize)
  | wellFormed (w : IrWellFormed)
  | fromEnv (f : IrFromEnv)
  | inScope (id : ItemId)
  | derefs (d : IrDerefs)
  | isLocal (t : IrTy)
  | isExternal (t : IrTy)
  | isDeeplyExternal (t : IrTy)
  | localImplAllowed (tr : IrTraitRef)

/-- The `Cast` from `ir::WhereClause` into `ir::DomainGoal` used by
`casted()` in the `Holds` arm (constructor-to-constructor embedding). -/
def IrWhereClause.cast : IrWhereClause → IrDomainGoal
  | .implemented tr => .implemented tr
  | .projectionEq p => .projectionEq p

structure IrEqGoal where
  a : IrParameter
  b : IrParameter

inductive IrLeafGoal where
  | domainGoal (g : IrDomainGoal)
  | eqGoal (e : IrEqGoal)

inductive QuantifierKind where
  | forAllQ
  | existsQ

mutual
inductive IrGoal where
  | quantified (k : QuantifierKind) (sub : Binders IrGoal)
  | implies (hyp : List IrProgramClause) (g : IrGoal)
  | and (g1 g2 : IrGoal)
  | not (g : IrGoal)
  | leaf (l : IrLeafGoal)

inductive IrProgramClause where
  | implies (i : IrProgramClauseImplication)
  | forAllC (b : Binders IrProgramClauseImplication)

inductive IrProgramClauseImplication where
  | mk (consequence : IrDomainGoal) (conditions : List IrGoal)
end

def IrProgramClauseImplication.consequence : IrProgramClauseImplication → IrDomainGoal
  | .mk c _ => c

def IrProgramClauseImplication.conditions : IrProgramClauseImplication → List IrGoal
  | .mk _ cs => cs

/-- Modelled from the spec (§4.8): `ir::ProgramClause::into_from_env_clause`
re-tags a hypothesis clause as an environmental assumption: an `Implemented`
consequence becomes the corresponding `FromEnv` trait consequence, other
consequences are left unchanged. -/
def IrDomainGoal.into_from_env : IrDomainGoal → IrDomainGoal
  | .implemented tr => .fromEnv (.trait tr)
  | g => g

def IrProgramClause.into_from_env_clause : IrProgramClause → IrProgramClause
  | .implies i => .implies (.mk i.consequence.into_from_env i.conditions)
  | .forAllC b => .forAllC
      { binders := b.binders,
        value := .mk b.value.consequence.into_from_env b.value.conditions }

/-! ### Kind checking (`check_type_kinds`) -/

/-- `check_type_kinds`: the `Kinded::kind()` projections are applied at the
call sites, the comparison and error formatting happen here. -/
def check_type_kinds (msg : String) (expected actual : PKind) : Except LowerErr Unit :=
  if expected ≠ actual then
    .error (.msg (msg ++ ": expected " ++ expected.str ++ ", found " ++ actual.str))
  else .ok ()

/-- The elementwise kind check performed by the `zip` loops; `zip` stops at
the shorter list. -/
def checkKindsZip (msg : String) : List PKind → List PKind → Except LowerErr Unit
  | e :: es, a :: as2 => do
      let _ ← check_type_kinds msg e a
      checkKindsZip msg es as2
  | _, _ => .ok ()

def lowerLifetime (l : Lifetime) (env : Env) : Except LowerErr IrLifetime :=
  match l with
  | .id name => do
      match ← env.lookup_lifetime name with
      | .parameter d => pure (.var d)

/-! ### Type, parameter, trait-reference and projection lowering

`&mut Env` is threaded explicitly; the mutation recorded on that path is
`trait_in_scope` registration. -/

mutual

def lowerTy : Ty → Env → Except LowerErr (IrTy × Env)
  | .id name, env => do
      match ← env.lookup name with
      | .type id => do
          let k ← match env.type_kind? id with
            | some k => pure k
            | none => throw (.panicked ("no entry found for key"))
          if k.binders.len > 0 then
            throw (.incorrectNumberOfTypeParameters name k.binders.len 0)
          pure (.apply (.mk (.itemId id) []), env)
      | .parameter d => pure (.var d, env)
  | .apply name args, env => do
      let id ← match ← env.lookup name with
        | .type id => pure id
        | .parameter _ => throw (.cannotApplyTypeParameter name)
      let k ← match env.type_kind? id with
        | some k => pure k
        | none => throw (.panicked ("no entry found for key"))
      if k.binders.len ≠ args.length then
        throw (.incorrectNumberOfTypeParameters name k.binders.len args.length)
      let (parameters, env) ← lowerParameters args env
      let _ ← checkKindsZip ("incorrect parameter kind")
        (k.binders.binders.map ParameterKind.kind) (args.map Parameter.kind)
      pure (.apply (.mk (.itemId id) parameters), env)
  | .projection proj, env => do
      let (p, env) ← lowerProjectionTy proj env
      pure (.projection p, env)
  | .unselectedProjection proj, env => do
      let (p, env) ← lowerUnselectedProjectionTy proj env
      pure (.unselectedProjection p, env)
  | .forAllTy lifetime_names ty, env => do
      let quantified_env ← env.introduce
        (lifetime_names.map (fun i => ParameterKind.lifetime i))
      let (t, _) ← lowerTy ty quantified_env
      pure (.forAllTy (.mk lifetime_names.length t), env)
termination_by t env => (sizeOf t, 0)

def lowerParameter : Parameter → Env → Except LowerErr (IrParameter × Env)
  | .ty t, env => do
      let (x, env) ← lowerTy t env
      pure (.ty x, env)
  | .lifetime l, env => do
      let x ← lowerLifetime l env
      pure (.lifetime x, env)
termination_by p env => (sizeOf p, 0)

def lowerParameters : List Parameter → Env → Except LowerErr (List IrParameter × Env)
  | [], env => pure ([], env)
  | a :: rest, env => do
      let (p, env) ← lowerParameter a env
      let (ps, env) ← lowerParameters rest env
      pure (p :: ps, env)
termination_by l env => (sizeOf l, 0)

def lowerProjectionTy : ProjectionTy → Env → Except LowerErr (IrProjectionTy × Env)
  | .mk trait_ref name args, env => do
      let (tr, env) ← lowerTraitRef trait_ref env
      let info ← match env.get_assoc_ty_info (tr.trait_id, name) with
        | some info => pure info
        | none => throw (.msg ("no associated type " ++ name ++ " defined in trait"))
      let (args2, env) ← lowerParameters args env
      if args2.length ≠ info.addl_parameter_kinds.length then
        throw (.msg ("wrong number of parameters for associated type (expected "
          ++ toString info.addl_parameter_kinds.length ++ ", got "
          ++ toString args2.length ++ ")"))
      let _ ← checkKindsZip ("incorrect kind for associated type parameter")
        (info.addl_parameter_kinds.map ParameterKind.kind) (args2.map IrParameter.kind)
      pure (.mk info.id (args2 ++ tr.parameters), env)
termination_by p env => (sizeOf p, 0)

def lowerUnselectedProjectionTy :
    UnselectedProjectionTy → Env → Except LowerErr (IrUnselectedProjectionTy × Env)
  | .mk name args, env => do
      let (parameters, env) ← lowerParameters args env
      pure (.mk name parameters, env)
termination_by p env => (sizeOf p, 0)

def lowerTraitRef : TraitRef → Env → Except LowerErr (IrTraitRef × Env)
  | .mk trait_name [], env => do
      let _ ← lowerTraitBound { trait_name, args_no_self := [] } env
      throw (.panicked ("index out of bounds"))
  | .mk trait_name (a :: rest), env => do
      let (without_self, env) ← lowerTraitBound { trait_name, args_no_self := rest } env
      let (self_parameter, env) ← lowerParameter a env
      let self_ty ← match self_parameter.ty? with
        | some t => pure t
        | none => throw (.panicked ("called Option::unwrap on a None value"))
      let trait_ref := without_self.as_trait_ref self_ty
      let env := env.trait_in_scope trait_ref
      pure (trait_ref, env)
termination_by tr env => (sizeOf tr, 1)

def lowerTraitBound : TraitBound → Env → Except LowerErr (IrTraitBound × Env)
  | ⟨trait_name, args_no_self⟩, env => do
      let id ← match ← env.lookup trait_name with
        | .type id => pure id
        | .parameter _ => throw (.notTrait trait_name)
      let k ← match env.type_kind? id with
        | some k => pure k
        | none => throw (.panicked ("no entry found for key"))
      if k.sort ≠ TypeSort.trait then
        throw (.notTrait trait_name)
      let (parameters, env) ← lowerParameters args_no_self env
      if parameters.length ≠ k.binders.len then
        throw (.msg ("wrong number of parameters, expected "
          ++ toString k.binders.len ++ ", got " ++ toString parameters.length))
      let _ ← checkKindsZip ("incorrect kind for trait parameter")
        (k.binders.binders.map ParameterKind.kind) (parameters.map IrParameter.kind)
      pure ({ trait_id := id, args_no_self := parameters }, env)
termination_by b env => (sizeOf b, 0)

end

/-! ### Where-clause lowering -/

def lowerWhereClause (wc : WhereClause) (env : Env) :
    Except LowerErr (List IrWhereClause × Env) :=
  match wc with
  | .implemented trait_ref => do
      let (tr, env) ← lowerTraitRef trait_ref env
      pure ([IrWhereClause.implemented tr], env)
  | .projectionEq projection ty => do
      let (p, env) ← lowerProjectionTy projection env
      let (t, env) ← lowerTy ty env
      let (tr, env) ← lowerTraitRef projection.trait_ref env
      pure ([IrWhereClause.projectionEq { projection := p, ty := t },
             IrWhereClause.implemented tr], env)

/-- `[WhereClause]::lower`: element-wise lowering, concatenating the produced
atoms; the first error aborts. -/
def lowerWhereClauses : List WhereClause → Env → Except LowerErr (List IrWhereClause × Env)
  | [], env => pure ([], env)
  | wc :: rest, env => do
      let (v, env) ← lowerWhereClause wc env
      let (vs, env) ← lowerWhereClauses rest env
      pure (v ++ vs, env)

def lowerQuantifiedWhereClause (wc : QuantifiedWhereClause) (env : Env) :
    Except LowerErr (List IrQuantifiedWhereClause × Env) := do
  let binders ← env.in_binders wc.parameter_kinds
    (fun env => lowerWhereClause wc.where_clause env)
  pure (binders.value.map (fun w => { binders := binders.binders, value := w }), env)

def lowerQuantifiedWhereClauses :
    List QuantifiedWhereClause → Env → Except LowerErr (List IrQuantifiedWhereClause × Env)
  | [], env => pure ([], env)
  | wc :: rest, env => do
      let (v, env) ← lowerQuantifiedWhereClause wc env
      let (vs, env) ← lowerQuantifiedWhereClauses rest env
      pure (v ++ vs, env)

/-! ### Domain-goal and leaf-goal lowering -/

def lowerDomainGoal (g : DomainGoal) (env : Env) :
    Except LowerErr (List IrDomainGoal × Env) :=
  match g with
  | .holds where_clause => do
      let (ws, env) ← lowerWhereClause where_clause env
      pure (ws.map IrWhereClause.cast, env)
  | .normalize projection ty => do
      let (p, env) ← lowerProjectionTy projection env
      let (t, env) ← lowerTy ty env
      pure ([IrDomainGoal.normalize { projection := p, ty := t }], env)
  | .tyWellFormed ty => do
      let (t, env) ← lowerTy ty env
      pure ([IrDomainGoal.wellFormed (.ty t)], env)
  | .traitRefWellFormed trait_ref => do
      let (tr, env) ← lowerTraitRef trait_ref env
      pure ([IrDomainGoal.wellFormed (.trait tr)], env)
  | .tyFromEnv ty => do
      let (t, env) ← lowerTy ty env
      pure ([IrDomainGoal.fromEnv (.ty t)], env)
  | .traitRefFromEnv trait_ref => do
      let (tr, env) ← lowerTraitRef trait_ref env
      pure ([IrDomainGoal.fromEnv (.trait tr)], env)
  | .traitInScope trait_name => do
      let id ← match ← env.lookup trait_name with
        | .type id => pure id
        | .parameter _ => throw (.notTrait trait_name)
      let k ← match env.type_kind? id with
        | some k => pure k
        | none => throw (.panicked ("no entry found for key"))
      if k.sort ≠ TypeSort.trait then
        throw (.notTrait trait_name)
      pure ([IrDomainGoal.inScope id], env)
  | .derefs source target => do
      let (s, env) ← lowerTy source env
      let (t, env) ← lowerTy target env
      pure ([IrDomainGoal.derefs { source := s, target := t }], env)
  | .isLocal ty => do
      let (t, env) ← lowerTy ty env
      pure ([IrDomainGoal.isLocal t], env)
  | .isExternal ty => do
      let (t, env) ← lowerTy ty env
      pure ([IrDomainGoal.isExternal t], env)
  | .isDeeplyExternal ty => do
      let (t, env) ← lowerTy ty env
      pure ([IrDomainGoal.isDeeplyExternal t], env)
  | .localImplAllowed trait_ref => do
      let (tr, env) ← lowerTraitRef trait_ref env
      pure ([IrDomainGoal.localImplAllowed tr], env)

def lowerLeafGoal (l : LeafGoal) (env : Env) :
    Except LowerErr (List IrLeafGoal × Env) :=
  match l with
  | .domainGoal goal => do
      let (gs, env) ← lowerDomainGoal goal env
      pure (gs.map IrLeafGoal.domainGoal, env)
  | .unifyTys a b => do
      let (ta, env) ← lowerTy a env
      let (tb, env) ← lowerTy b env
      pure ([IrLeafGoal.eqGoal { a := IrParameter.ty ta, b := IrParameter.ty tb }], env)
  | .unifyLifetimes a b => do
      let la ← lowerLifetime a env
      let lb ← lowerLifetime b env
      pure ([IrLeafGoal.eqGoal { a := IrParameter.lifetime la, b := IrParameter.lifetime lb }],
            env)

/-- `itertools::Itertools::fold1`. -/
def fold1 {α : Type} (l : List α) (f : α → α → α) : Option α :=
  match l with
  | [] => none
  | x :: xs => some (xs.foldl f x)

/-! ### Goal and custom-clause lowering

`Env::in_binders` is inlined in `lowerClause` and `lowerQuantifiedGoal` so
that the recursion through the closure is visible to the termination
checker; the inlined code follows `in_binders` literally. -/

mutual

def lowerGoal : Goal → Env → Except LowerErr (IrGoal × Env)
  | .forAllG ids g, env => do
      let a ← lowerQuantifiedGoal g env .forAllQ ids
      pure (a, env)
  | .existsG ids g, env => do
      let a ← lowerQuantifiedGoal g env .existsQ ids
      pure (a, env)
  | .impliesG hyp g, env => do
      let where_clauses ← lowerFromEnvHyps hyp env
      let (body, env) ← lowerGoal g env
      pure (.implies where_clauses body, env)
  | .andG g1 g2, env => do
      let (a, env) ← lowerGoal g1 env
      let (b, env) ← lowerGoal g2 env
      pure (.and a b, env)
  | .notG g, env => do
      let (a, env) ← lowerGoal g env
      pure (.not a, env)
  | .leaf l, env => do
      let (leaves, env) ← lowerLeafGoal l env
      match fold1 (leaves.map IrGoal.leaf) IrGoal.and with
      | some goal => pure (goal, env)
      | none => throw (.panicked ("at least one goal"))
termination_by g env => (sizeOf g, 0)

def lowerQuantifiedGoal (g : Goal) (env : Env) (quantifier_kind : QuantifierKind)
    (parameter_kinds : List PK) : Except LowerErr IrGoal :=
  if parameter_kinds.isEmpty then do
    let (a, _) ← lowerGoal g env
    pure a
  else do
    let env2 ← env.introduce parameter_kinds
    let (sub, _) ← lowerGoal g env2
    pure (.quantified quantifier_kind { binders := anonymize parameter_kinds, value := sub })
termination_by (sizeOf g, 1)

def lowerGoalList : List Goal → Env → Except LowerErr (List IrGoal × Env)
  | [], env => pure ([], env)
  | g :: rest, env => do
      let (a, env) ← lowerGoal g env
      let (as2, env) ← lowerGoalList rest env
      pure (a :: as2, env)
termination_by l env => (sizeOf l, 0)

/-- The hypothesis treatment of `Goal::Implies`: each hypothesis clause is
lowered by `lower_clause` and every produced program clause is turned into
its `FromEnv` form; the first error aborts. -/
def lowerFromEnvHyps : List Clause → Env → Except LowerErr (List IrProgramClause)
  | [], _ => pure []
  | h :: rest, env => do
      let cs ← lowerClause h env
      let more ← lowerFromEnvHyps rest env
      pure (cs.map IrProgramClause.into_from_env_clause ++ more)
termination_by l env => (sizeOf l, 0)

def lowerClause : Clause → Env → Except LowerErr (List IrProgramClause)
  | .mk parameter_kinds consequence conditions, env => do
      let env1 ← env.introduce parameter_kinds
      let (consequences, env2) ← lowerDomainGoal consequence env1
      let (conds, _) ← lowerGoalList conditions env2
      -- Subtle: in the SLG solver, conditions are popped from R to L, so
      -- they are reversed to preserve the expected L-to-R order.
      let conds := conds.reverse
      let implications := consequences.map
        (fun consequence => IrProgramClauseImplication.mk consequence conds)
      let b : Binders (List IrProgramClauseImplication) :=
        { binders := anonymize parameter_kinds, value := implications }
      pure (b.value.map (fun implication =>
        if b.binders.isEmpty then IrProgramClause.implies implication
        else IrProgramClause.forAllC { binders := b.binders, value := implication }))
termination_by c env => (sizeOf c, 0)

end

/-! ### Item lowering -/

inductive IrPolarizedTraitRef where
  | positive (tr : IrTraitRef)
  | negative (tr : IrTraitRef)

def IrPolarizedTraitRef.is_positive : IrPolarizedTraitRef → Bool
  | .positive _ => true
  | .negative _ => false

def IrPolarizedTraitRef.trait_ref : IrPolarizedTraitRef → IrTraitRef
  | .positive tr => tr
  | .negative tr => tr

def lowerPolarizedTraitRef (p : PolarizedTraitRef) (env : Env) :
    Except LowerErr (IrPolarizedTraitRef × Env) :=
  match p with
  | .positive tr => do
      let (t, env) ← lowerTraitRef tr env
      pure (.positive t, env)
  | .negative tr => do
      let (t, env) ← lowerTraitRef tr env
      pure (.negative t, env)

structure AssociatedTyValueBound where
  ty : IrTy

structure IrAssociatedTyValue where
  associated_ty_id : ItemId
  value : Binders AssociatedTyValueBound

/-- `LowerAssocTyValue::lower`: the associated-type info lookup is an
`unwrap`, which panics when the impl supplies a name the trait does not
declare. -/
def lowerAssocTyValue (v : AssocTyValue) (trait_id : ItemId) (env : Env) :
    Except LowerErr IrAssociatedTyValue := do
  let info ← match env.get_assoc_ty_info (trait_id, v.name) with
    | some info => pure info
    | none => throw (.panicked ("called Option::unwrap on a None value"))
  let value ← env.in_binders v.all_parameters (fun env => do
    let (t, env) ← lowerTy v.value env
    pure (({ ty := t } : AssociatedTyValueBound), env))
  pure { associated_ty_id := info.id, value := value }

def lowerAssocTyValues : List AssocTyValue → ItemId → Env →
    Except LowerErr (List IrAssociatedTyValue)
  | [], _, _ => pure []
  | v :: rest, trait_id, env => do
      let x ← lowerAssocTyValue v trait_id env
      let xs ← lowerAssocTyValues rest trait_id env
      pure (x :: xs)

structure ImplDatumBound where
  trait_ref : IrPolarizedTraitRef
  where_clauses : List IrQuantifiedWhereClause
  associated_ty_values : List IrAssociatedTyValue
  specialization_priority : Nat

structure ImplDatum where
  binders : Binders ImplDatumBound

def lower_impl (i : Impl) (empty_env : Env) : Except LowerErr ImplDatum := do
  let binders ← empty_env.in_binders i.all_parameters (fun env => do
    let (trait_ref, env) ← lowerPolarizedTraitRef i.trait_ref env
    if !trait_ref.is_positive && !i.assoc_ty_values.isEmpty then
      throw (.msg ("negative impls cannot define associated values"))
    let trait_id := trait_ref.trait_ref.trait_id
    let (where_clauses, env) ← lowerQuantifiedWhereClauses i.where_clauses env
    let associated_ty_values ← lowerAssocTyValues i.assoc_ty_values trait_id env
    pure (({ trait_ref, where_clauses, associated_ty_values,
             specialization_priority := 0 } : ImplDatumBound), env))
  pure { binders := binders }

structure IrTraitFlags where
  auto : Bool
  marker : Bool
  external : Bool
  deref : Bool

structure TraitDatumBound where
  trait_ref : IrTraitRef
  where_clauses : List IrQuantifiedWhereClause
  flags : IrTraitFlags

structure TraitDatum where
  binders : Binders TraitDatumBound

def lower_trait (trait_id : ItemId) (d : TraitDefn) (env : Env) :
    Except LowerErr TraitDatum := do
  let binders ← env.in_binders d.all_parameters (fun env => do
    let trait_ref : IrTraitRef := { trait_id := trait_id, parameters := d.parameter_refs }
    if d.flags.auto then do
      if trait_ref.parameters.length > 1 then
        throw (.msg ("auto trait cannot have parameters"))
      if !d.where_clauses.isEmpty then
        throw (.msg ("auto trait cannot have where clauses"))
    let (where_clauses, env) ← lowerQuantifiedWhereClauses d.where_clauses env
    pure (({ trait_ref, where_clauses,
             flags := { auto := d.flags.auto, marker := d.flags.marker,
                        external := d.flags.external, deref := d.flags.deref } }
           : TraitDatumBound), env))
  pure { binders := binders }

/-- The spec-side comparator for the claim that a non-auto trait is subject
to none of the auto-trait rejections: `lower_trait` with the auto-flag guard
block removed. -/
def lower_trait_unchecked (trait_id : ItemId) (d : TraitDefn) (env : Env) :
    Except LowerErr TraitDatum := do
  let binders ← env.in_binders d.all_parameters (fun env => do
    let trait_ref : IrTraitRef := { trait_id := trait_id, parameters := d.parameter_refs }
    let (where_clauses, env) ← lowerQuantifiedWhereClauses d.where_clauses env
    pure (({ trait_ref, where_clauses,
             flags := { auto := d.flags.auto, marker := d.flags.marker,
                        external := d.flags.external, deref := d.flags.deref } }
           : TraitDatumBound), env))
  pure { binders := binders }

/-! ### Inline bounds and the associated-type datum of the driver -/

structure IrProjectionEqBound where
  trait_bound : IrTraitBound
  associated_ty_id : ItemId
  parameters : List IrParameter
  value : IrTy

inductive IrInlineBound where
  | traitBound (b : IrTraitBound)
  | projectionEqBound (b : IrProjectionEqBound)

def lowerProjectionEqBound (b : ProjectionEqBound) (env : Env) :
    Except LowerErr (IrProjectionEqBound × Env) := do
  let (trait_bound, env) ← lowerTraitBound b.trait_bound env
  let info ← match env.get_assoc_ty_info (trait_bound.trait_id, b.name) with
    | some info => pure info
    | none => throw (.msg ("no associated type " ++ b.name ++ " defined in trait"))
  let (args, env) ← lowerParameters b.args env
  if args.length ≠ info.addl_parameter_kinds.length then
    throw (.msg ("wrong number of parameters for associated type (expected "
      ++ toString info.addl_parameter_kinds.length ++ ", got "
      ++ toString args.length ++ ")"))
  let _ ← checkKindsZip ("incorrect kind for associated type parameter")
    (info.addl_parameter_kinds.map ParameterKind.kind) (args.map IrParameter.kind)
  let (value, env) ← lowerTy b.value env
  pure ({ trait_bound, associated_ty_id := info.id, parameters := args, value }, env)

def lowerInlineBound (b : InlineBound) (env : Env) :
    Except LowerErr (IrInlineBound × Env) :=
  match b with
  | .traitBound tb => do
      let (x, env) ← lowerTraitBound tb env
      pure (.traitBound x, env)
  | .projectionEqBound pb => do
      let (x, env) ← lowerProjectionEqBound pb env
      pure (.projectionEqBound x, env)

def lowerInlineBounds : List InlineBound → Env → Except LowerErr (List IrInlineBound × Env)
  | [], env => pure ([], env)
  | b :: rest, env => do
      let (x, env) ← lowerInlineBound b env
      let (xs, env) ← lowerInlineBounds rest env
      pure (x :: xs, env)

structure AssociatedTyDatum where
  trait_id : ItemId
  id : ItemId
  name : Identifier
  parameter_kinds : List PK
  bounds : List IrInlineBound
  where_clauses : List IrQuantifiedWhereClause

/-- The associated-ty-datum construction of the driver (`LowerProgram::lower`,
per-trait loop over `assoc_ty_defns`): the binder introduces the defn's own
parameters followed by the trait's `all_parameters`. -/
def lowerAssocTyDatum (trait_item_id : ItemId) (d : TraitDefn) (defn : AssocTyDefn)
    (info : AssociatedTyInfo) (empty_env : Env) : Except LowerErr AssociatedTyDatum := do
  let parameter_kinds := defn.all_parameters ++ d.all_parameters
  let env ← empty_env.introduce parameter_kinds
  let (bounds, env) ← lowerInlineBounds defn.bounds env
  let (where_clauses, _) ← lowerQuantifiedWhereClauses defn.where_clauses env
  pure { trait_id := trait_item_id, id := info.id, name := defn.name,
         parameter_kinds := parameter_kinds, bounds := bounds,
         where_clauses := where_clauses }

/-- The per-trait fragment of the driver's first traversal: the auto-trait
associated-type check, then allocation of one `ItemId` per associated-type
definition together with its `AssociatedTyInfo`, inserted into the
accumulated map. -/
def buildAssocInfos (d : TraitDefn) (item_id : ItemId) (next : Nat)
    (acc : List ((ItemId × Identifier) × AssociatedTyInfo)) :
    List ((ItemId × Identifier) × AssociatedTyInfo) × Nat :=
  d.assoc_ty_defns.foldl
    (fun s defn =>
      (mapInsert s.1 (item_id, defn.name)
        { id := ⟨s.2⟩, addl_parameter_kinds := defn.all_parameters }, s.2 + 1))
    (acc, next)

def collectAssocTyInfosForTrait (d : TraitDefn) (item_id : ItemId) (next : Nat)
    (acc : List ((ItemId × Identifier) × AssociatedTyInfo)) :
    Except LowerErr (List ((ItemId × Identifier) × AssociatedTyInfo) × Nat) :=
  if d.flags.auto && !d.assoc_ty_defns.isEmpty then
    .error (.msg ("auto trait cannot define associated types"))
  else
    .ok (buildAssocInfos d item_id next acc)

/-! ### Concrete inputs used by witnesses and counterexamples -/

/-- Environment listing a zero-parameter trait `Foo` and a zero-parameter
struct `S`. -/
def envF : Env :=
  Env.empty [("Foo", ⟨0⟩), ("S", ⟨1⟩)]
    [(⟨0⟩, ⟨.trait, "Foo", ⟨[], ()⟩⟩), (⟨1⟩, ⟨.struct, "S", ⟨[], ()⟩⟩)] []

/-- `envF` with a lifetime parameter `a` in scope at depth 0. -/
def envFL : Env := { envF with parameter_map := [(ParameterKind.lifetime "a", 0)] }

/-- Environment for a zero-parameter trait `Iterator` with associated type
`Item` (no additional parameters) and a type parameter `T` at depth 0. -/
def envIter : Env :=
  { type_ids := [("Iterator", ⟨0⟩)],
    type_kinds := [(⟨0⟩, ⟨.trait, "Iterator", ⟨[], ()⟩⟩)],
    associated_ty_infos := [((⟨0⟩, "Item"), ⟨⟨1⟩, []⟩)],
    parameter_map := [(ParameterKind.ty "T", 0)],
    traits_in_scope := [] }

def itrT : IrTraitRef := ⟨⟨0⟩, [IrParameter.ty (.var 0)]⟩

def envIter2 : Env := { envIter with traits_in_scope := [(⟨0⟩, itrT)] }

def envE : Env := Env.empty [] [] []

/-- Environment whose associated-ty infos hold exactly one candidate named
`Item`, with its owning trait in scope. -/
def envC1 : Env :=
  { envE with
    associated_ty_infos := [((⟨0⟩, "Item"), ⟨⟨1⟩, []⟩)],
    traits_in_scope := [(⟨0⟩, ⟨⟨0⟩, []⟩)] }

def uItem : UnselectedProjectionTy := .mk "Item" []

/-- An impl of the (associated-type-free) trait `Foo` for `S` that supplies
an associated-type value for a name `Item` the trait does not declare. -/
def implC3 : Impl :=
  { parameter_kinds := [],
    trait_ref := .positive (.mk "Foo" [Parameter.ty (.id "S")]),
    where_clauses := [],
    assoc_ty_values := [⟨"Item", [], .id "S"⟩] }

def aC6 : AssocTyDefn := ⟨"Item", [ParameterKind.ty "U"], [], []⟩

/-- A non-auto trait `Foo<T>` with one associated type `Item<U>`. -/
def dC6 : TraitDefn :=
  ⟨"Foo", [ParameterKind.ty "T"], [], [aC6], ⟨false, false, false, false⟩⟩

def infoC6 : AssociatedTyInfo := ⟨⟨1⟩, [ParameterKind.ty "U"]⟩

def clauseC7 : Clause :=
  .mk [] (.tyWellFormed (.id "S")) [.leaf (.unifyTys (.id "S") (.id "S"))]

/-- An auto trait with a duplicated declared parameter. -/
def dC8 : TraitDefn :=
  ⟨"A", [ParameterKind.ty "X", ParameterKind.ty "X"], [], [], ⟨true, false, false, false⟩⟩

/-- An auto trait with one declared parameter. -/
def dC8b : TraitDefn :=
  ⟨"A", [ParameterKind.ty "X"], [], [], ⟨true, false, false, false⟩⟩

/-- An auto trait with `Self` only and one where-clause. -/
def dC8c : TraitDefn :=
  ⟨"A", [], [⟨[], .implemented (.mk "A" [])⟩], [], ⟨true, false, false, false⟩⟩

/-- An auto trait with an associated-type definition. -/
def dC8d : TraitDefn :=
  ⟨"A", [], [], [aC6], ⟨true, false, false, false⟩⟩

def envW : Env := { envE with parameter_map := [(ParameterKind.ty "T", 0)] }

def bsW : List PK := [ParameterKind.ty "U", ParameterKind.lifetime "a"]

/-- The syntactic projection `<T as Iterator>::Item`. -/
def projC4 : ProjectionTy := .mk (.mk "Iterator" [Parameter.ty (.id "T")]) "Item" []

/-- The syntactic where-clause `<T as Iterator>::Item = T`. -/
def wcC4 : WhereClause := .projectionEq projC4 (.id "T")

def wsC4 : List IrWhereClause :=
  [IrWhereClause.projectionEq { projection := .mk ⟨1⟩ [IrParameter.ty (.var 0)], ty := .var 0 },
   IrWhereClause.implemented itrT]

/-- The lowered trait reference `S: Foo` of `implC3`. -/
def trC3 : IrTraitRef := ⟨⟨0⟩, [IrParameter.ty (.apply (.mk (.itemId ⟨1⟩) []))]⟩

def envF3 : Env := { envF with traits_in_scope := [(⟨0⟩, trC3)] }

def vC3a : AssocTyValue := ⟨"Item", [], .id "S"⟩

def vC3b : AssocTyValue := ⟨"Item", [], .id "T"⟩

/-- The expected associated-ty datum for `Item<U>` inside `Foo<T>`. -/
def datumC6 : AssociatedTyDatum :=
  { trait_id := ⟨0⟩, id := ⟨1⟩, name := "Item",
    parameter_kinds := [ParameterKind.ty "U", ParameterKind.ty "Self", ParameterKind.ty "T"],
    bounds := [], where_clauses := [] }

/-- The lowered IR type of the zero-parameter struct `S`. -/
def sApp : IrTy := .apply (.mk (.itemId ⟨1⟩) [])

def csC7 : List IrProgramClause :=
  [IrProgramClause.implies
    (.mk (.wellFormed (.ty sApp))
      [IrGoal.leaf (.eqGoal { a := .ty sApp, b := .ty sApp })])]

def lC9 : LeafGoal := .unifyTys (.id "T") (.id "T")

def eqC9 : IrLeafGoal := .eqGoal { a := .ty (.var 0), b := .ty (.var 0) }

/-! ## Lemmas about the association-list map model -/

theorem keysOf_cons {α β : Type} (e : α × β) (m : List (α × β)) :
    keysOf (e :: m) = e.1 :: keysOf m := rfl

theorem keysOf_append {α β : Type} (m1 m2 : List (α × β)) :
    keysOf (m1 ++ m2) = keysOf m1 ++ keysOf m2 := by
  simp [keysOf]

theorem length_keysOf {α β : Type} (m : List (α × β)) :
    (keysOf m).length = m.length := by
  simp [keysOf]

theorem keysOf_shift {α β : Type} (m : List (α × β)) (f : α × β → β) :
    keysOf (m.map (fun e => (e.1, f e))) = keysOf m := by
  induction m with
  | nil => rfl
  | cons e rest ih =>
      simp only [List.map_cons, keysOf_cons]
      rw [ih]

theorem mapFind?_cons {α β : Type} [DecidableEq α] (e : α × β) (rest : List (α × β)) (a : α) :
    mapFind? (e :: rest) a = if e.1 = a then some e.2 else mapFind? rest a := rfl

theorem mapFind?_isSome {α β : Type} [DecidableEq α] (m : List (α × β)) (k : α) :
    (mapFind? m k).isSome = true ↔ k ∈ keysOf m := by
  induction m with
  | nil => simp [mapFind?, keysOf]
  | cons e rest ih =>
      rw [mapFind?, keysOf_cons, List.mem_cons]
      by_cases h : e.1 = k
      · simp [h]
      · rw [if_neg h, ih]
        constructor
        · exact Or.inr
        · rintro (rfl | hm)
          · exact absurd rfl h
          · exact hm

theorem mapFind?_mem {α β : Type} [DecidableEq α] {m : List (α × β)} {a : α} {v : β}
    (h : mapFind? m a = some v) : (a, v) ∈ m := by
  induction m with
  | nil => simp [mapFind?] at h
  | cons e rest ih =>
      rw [mapFind?] at h
      by_cases he : e.1 = a
      · rw [if_pos he] at h
        injection h with hv
        have he2 : e = (a, v) := by
          cases e
          simp only at he hv
          simp [he, hv]
        rw [← he2]
        exact List.mem_cons_self e rest
      · rw [if_neg he] at h
        exact List.mem_cons_of_mem _ (ih h)

theorem mapFind?_append {α β : Type} [DecidableEq α] (m1 m2 : List (α × β)) (a : α) :
    mapFind? (m1 ++ m2) a =
      (match mapFind? m1 a with | some v => some v | none => mapFind? m2 a) := by
  induction m1 with
  | nil => simp [mapFind?]
  | cons e rest ih =>
      by_cases h : e.1 = a <;> simp [mapFind?, h, ih]

theorem keysOf_replaceAll {α β : Type} [DecidableEq α] (m : List (α × β)) (k : α) (v : β) :
    keysOf (m.map (fun e => if e.1 = k then (k, v) else e)) = keysOf m := by
  induction m with
  | nil => rfl
  | cons e rest ih =>
      simp only [List.map_cons, keysOf_cons, ih]
      congr 1
      by_cases h : e.1 = k
      · rw [if_pos h]; exact h.symm
      · rw [if_neg h]

theorem keysOf_mapInsert {α β : Type} [DecidableEq α] (m : List (α × β)) (k : α) (v : β) :
    keysOf (mapInsert m k v) = if k ∈ keysOf m then keysOf m else keysOf m ++ [k] := by
  unfold mapInsert
  by_cases h : (mapFind? m k).isSome
  · rw [if_pos h, if_pos ((mapFind?_isSome m k).mp h), keysOf_replaceAll]
  · rw [if_neg h, if_neg (fun hm => h ((mapFind?_isSome m k).mpr hm)), keysOf_append]
    rfl

theorem length_mapInsert {α β : Type} [DecidableEq α] (m : List (α × β)) (k : α) (v : β) :
    (mapInsert m k v).length = if k ∈ keysOf m then m.length else m.length + 1 := by
  have h2 := congrArg List.length (keysOf_mapInsert m k v)
  rw [length_keysOf] at h2
  by_cases h : k ∈ keysOf m
  · rw [if_pos h] at h2 ⊢
    rw [h2, length_keysOf]
  · rw [if_neg h] at h2 ⊢
    rw [h2]
    simp [length_keysOf]

theorem mapFind?_replaceAll {α β : Type} [DecidableEq α] (m : List (α × β)) (k a : α) (v : β) :
    mapFind? (m.map (fun e => if e.1 = k then (k, v) else e)) a =
      if a = k then (mapFind? m k).map (fun _ => v) else mapFind? m a := by
  induction m with
  | nil => by_cases h : a = k <;> simp [mapFind?, h]
  | cons e rest ih =>
      simp only [List.map_cons]
      by_cases hek : e.1 = k <;> by_cases hak : a = k
      · subst hak
        rw [if_pos hek]
        rw [show mapFind? ((a, v) :: List.map (fun e => if e.1 = a then (a, v) else e) rest) a
              = some v by rw [mapFind?, if_pos rfl]]
        rw [if_pos rfl, mapFind?, if_pos hek]
        rfl
      · have hka : ¬ ((k : α) = a) := fun h2 => hak h2.symm
        have hea : ¬ (e.1 = a) := by
          intro h2
          exact hak (h2.symm.trans hek)
        rw [if_pos hek, if_neg hak]
        rw [mapFind?_cons (k, v) _ a, if_neg hka, ih, if_neg hak]
        rw [mapFind?_cons e rest a, if_neg hea]
      · rw [if_neg hek]
        subst hak
        rw [mapFind?, if_neg hek, ih, if_pos rfl, if_pos rfl, mapFind?, if_neg hek]
      · rw [if_neg hek]
        by_cases hea : e.1 = a
        · rw [mapFind?, if_pos hea, if_neg hak, mapFind?, if_pos hea]
        · rw [mapFind?, if_neg hea, ih, if_neg hak, if_neg hak, mapFind?, if_neg hea]

theorem mapFind?_mapInsert {α β : Type} [DecidableEq α] (m : List (α × β)) (k a : α) (v : β) :
    mapFind? (mapInsert m k v) a = if a = k then some v else mapFind? m a := by
  unfold mapInsert
  by_cases h : (mapFind? m k).isSome
  · rw [if_pos h, mapFind?_replaceAll]
    by_cases hak : a = k
    · rw [if_pos hak, if_pos hak]
      rcases Option.isSome_iff_exists.mp h with ⟨w, hw⟩
      rw [hw]
      rfl
    · rw [if_neg hak, if_neg hak]
  · rw [if_neg h, mapFind?_append]
    have hm : mapFind? m k = none := Option.not_isSome_iff_eq_none.mp h
    by_cases hak : a = k
    · subst hak
      rw [hm, if_pos rfl]
      show mapFind? [(a, v)] a = some v
      rw [mapFind?, if_pos rfl]
    · rw [if_neg hak]
      rcases hma : mapFind? m a with _ | w
      · show mapFind? [(k, v)] a = none
        rw [mapFind?_cons (k, v) [] a, if_neg (fun h2 : (k : α) = a => hak h2.symm)]
        rfl
      · rfl

theorem nodupKeys_mapInsert {α β : Type} [DecidableEq α] {m : List (α × β)} (k : α) (v : β)
    (h : NodupKeys m) : NodupKeys (mapInsert m k v) := by
  unfold NodupKeys at *
  rw [keysOf_mapInsert]
  by_cases hk : k ∈ keysOf m
  · rwa [if_pos hk]
  · rw [if_neg hk]
    simp [List.nodup_append, h, hk]

theorem foldIns_cons {α β : Type} [DecidableEq α] (m : List (α × β)) (e : α × β) (l : List (α × β)) :
    foldIns m (e :: l) = foldIns (mapInsert m e.1 e.2) l := rfl

theorem foldIns_append {α β : Type} [DecidableEq α] (m l1 l2 : List (α × β)) :
    foldIns m (l1 ++ l2) = foldIns (foldIns m l1) l2 := by
  simp [foldIns, List.foldl_append]

theorem keysOf_foldIns {α β : Type} [DecidableEq α] (m l : List (α × β)) :
    keysOf (foldIns m l) = addKeys (keysOf m) (keysOf l) := by
  induction l generalizing m with
  | nil => rfl
  | cons e l ih =>
      rw [foldIns_cons, ih, keysOf_cons]
      show _ = addKeys (if e.1 ∈ keysOf m then keysOf m else keysOf m ++ [e.1]) (keysOf l)
      rw [keysOf_mapInsert]

theorem nodupKeys_foldIns {α β : Type} [DecidableEq α] {m : List (α × β)} (l : List (α × β))
    (h : NodupKeys m) : NodupKeys (foldIns m l) := by
  induction l generalizing m with
  | nil => exact h
  | cons e l ih => exact ih (nodupKeys_mapInsert e.1 e.2 h)

theorem addKeys_length_le {α : Type} [DecidableEq α] (l ks : List α) :
    (addKeys ks l).length ≤ ks.length + l.length := by
  induction l generalizing ks with
  | nil => simp [addKeys]
  | cons k l ih =>
      show (addKeys (if k ∈ ks then ks else ks ++ [k]) l).length ≤ _
      by_cases h : k ∈ ks
      · rw [if_pos h]
        have h2 := ih ks
        simp only [List.length_cons]
        omega
      · rw [if_neg h]
        have h2 := ih (ks ++ [k])
        have h3 : (ks ++ [k]).length = ks.length + 1 := by simp
        simp only [List.length_cons]
        omega

theorem addKeys_length_eq_iff {α : Type} [DecidableEq α] (l ks : List α) :
    (addKeys ks l).length = ks.length + l.length ↔ (l.Nodup ∧ ∀ a ∈ l, a ∉ ks) := by
  induction l generalizing ks with
  | nil => simp [addKeys]
  | cons k l ih =>
      show (addKeys (if k ∈ ks then ks else ks ++ [k]) l).length
          = ks.length + (k :: l).length ↔ _
      by_cases h : k ∈ ks
      · rw [if_pos h]
        have hle := addKeys_length_le (α := α) l ks
        simp only [List.length_cons]
        constructor
        · intro hlen; omega
        · rintro ⟨-, hd⟩
          exact absurd h (hd k (List.mem_cons_self k l))
      · rw [if_neg h]
        have harith : ks.length + (k :: l).length = (ks ++ [k]).length + l.length := by
          simp; omega
        rw [harith, ih]
        constructor
        · rintro ⟨hnd, hd⟩
          have hkl : k ∉ l := by
            intro hkl
            have h3 := hd k hkl
            simp at h3
          refine ⟨List.nodup_cons.mpr ⟨hkl, hnd⟩, ?_⟩
          intro a ha
          rcases List.mem_cons.mp ha with rfl | hal
          · exact h
          · intro hks
            have h3 := hd a hal
            simp [hks] at h3
        · rintro ⟨hnd2, hd⟩
          have hkl : k ∉ l := (List.nodup_cons.mp hnd2).1
          refine ⟨(List.nodup_cons.mp hnd2).2, ?_⟩
          intro a hal hmem
          rcases List.mem_append.mp hmem with hks | hsing
          · exact hd a (List.mem_cons_of_mem _ hal) hks
          · rw [List.mem_singleton] at hsing
            subst hsing
            exact hkl hal

theorem mapFind?_foldIns_not_mem {α β : Type} [DecidableEq α] (l : List (α × β)) :
    ∀ (m : List (α × β)) (a : α), a ∉ keysOf l →
      mapFind? (foldIns m l) a = mapFind? m a := by
  induction l with
  | nil => intro m a _; rfl
  | cons e l ih =>
      intro m a h
      rw [keysOf_cons, List.mem_cons] at h
      push_neg at h
      rw [foldIns_cons, ih (mapInsert m e.1 e.2) a h.2, mapFind?_mapInsert, if_neg h.1]

theorem mapFind?_foldIns_mem {α β : Type} [DecidableEq α] (l : List (α × β)) :
    ∀ (m : List (α × β)) (a : α) (v : β), NodupKeys l → (a, v) ∈ l →
      mapFind? (foldIns m l) a = some v := by
  induction l with
  | nil => intro m a v _ hm; cases hm
  | cons e l ih =>
      intro m a v hnd hm
      have hnd2 : NodupKeys l := by
        unfold NodupKeys at hnd ⊢
        rw [keysOf_cons] at hnd
        exact hnd.of_cons
      rcases List.mem_cons.mp hm with heq | hmem
      · have ha : a = e.1 := by rw [← heq]
        have hv : v = e.2 := by rw [← heq]
        have hnotin : a ∉ keysOf l := by
          unfold NodupKeys at hnd
          rw [keysOf_cons, List.nodup_cons] at hnd
          rw [ha]; exact hnd.1
        rw [foldIns_cons, mapFind?_foldIns_not_mem l _ a hnotin, mapFind?_mapInsert,
          if_pos ha, hv]
      · rw [foldIns_cons]
        exact ih _ a v hnd2 hmem

theorem enumFrom_map_snd {α : Type} (l : List α) : ∀ n, (l.enumFrom n).map Prod.snd = l := by
  induction l with
  | nil => intro n; rfl
  | cons a l ih =>
      intro n
      simp only [List.enumFrom, List.map_cons]
      rw [ih]

theorem keysOf_swap {α : Type} (l : List (Nat × α)) :
    keysOf (l.map (fun e => (e.2, e.1))) = l.map Prod.snd := by
  induction l with
  | nil => rfl
  | cons e rest ih =>
      simp only [List.map_cons, keysOf_cons]
      rw [ih]

theorem keysOf_newPairs (bs : List PK) :
    keysOf (bs.enum.map (fun e => (e.2, e.1))) = bs := by
  rw [keysOf_swap]
  exact enumFrom_map_snd bs 0

/-! ## C2 -/

/-- C2 counterexample: for the concrete trait `Foo<T>` (one declared
parameter), `anonymize(all_parameters())` has length 2, not 1: the synthetic
`Self` is prepended, not stripped. -/
theorem c2_all_parameters_counterexample :
    ¬ ((anonymize dC6.all_parameters).length = dC6.parameter_kinds.length) := by
  decide

/-- C2 (amended): for every trait definition,
`anonymize(all_parameters(trait))` has length equal to the declared
parameter count plus one — `all_parameters` prepends the synthetic `Self`
and `anonymize` preserves length.  `Self` is stripped only in the trait's
`TypeKind` binders (`lower_type_kind`), whose length is exactly the
declared parameter count. -/
theorem c2_all_parameters_length (d : TraitDefn) :
    (anonymize d.all_parameters).length = d.parameter_kinds.length + 1
    ∧ d.lower_type_kind.binders.len = d.parameter_kinds.length := by
  constructor
  · simp [anonymize, TraitDefn.all_parameters]
  · simp [TraitDefn.lower_type_kind, Binders.len, anonymize]

/-- C2 witness: the amended statement evaluated on the concrete trait
`Foo<T>`. -/
theorem c2_all_parameters_length_witness :
    (anonymize dC6.all_parameters).length = dC6.parameter_kinds.length + 1
    ∧ dC6.lower_type_kind.binders.len = dC6.parameter_kinds.length :=
  c2_all_parameters_length dC6

/-! ## C5 -/

/-- Full characterization of `Env.introduce` over a well-formed parameter
map; shared between the claims that rely on binder introduction. -/
theorem introduce_characterization (env : Env) (bs : List PK)
    (hnd : NodupKeys env.parameter_map) :
    ((∃ env2, env.introduce bs = .ok env2) ↔
      (bs.Nodup ∧ ∀ b ∈ bs, b ∉ keysOf env.parameter_map))
    ∧ (¬ (bs.Nodup ∧ ∀ b ∈ bs, b ∉ keysOf env.parameter_map) →
        env.introduce bs = .error (.msg ("duplicate parameters")))
    ∧ (∀ env2, env.introduce bs = .ok env2 →
        (∀ k d, mapFind? env.parameter_map k = some d →
          mapFind? env2.parameter_map k = some (d + bs.length))
        ∧ (∀ p ∈ bs.enum, mapFind? env2.parameter_map p.2 = some p.1)
        ∧ env2.type_ids = env.type_ids
        ∧ env2.type_kinds = env.type_kinds
        ∧ env2.associated_ty_infos = env.associated_ty_infos
        ∧ env2.traits_in_scope = env.traits_in_scope) := by
  classical
  have hkeys : keysOf ((env.parameter_map.map (fun e => (e.1, e.2 + bs.length)))
      ++ (bs.enum.map (fun e => (e.2, e.1))))
      = keysOf env.parameter_map ++ bs := by
    rw [keysOf_append, keysOf_shift, keysOf_newPairs]
  have hlen : (mapCollect ((env.parameter_map.map (fun e => (e.1, e.2 + bs.length)))
      ++ (bs.enum.map (fun e => (e.2, e.1))))).length
      = (addKeys ([] : List PK) (keysOf env.parameter_map ++ bs)).length := by
    rw [← length_keysOf]
    unfold mapCollect
    rw [keysOf_foldIns, hkeys]
    rfl
  have hLlen : (keysOf env.parameter_map ++ bs).length
      = env.parameter_map.length + bs.length := by
    rw [List.length_append, length_keysOf]
  have hcond : (mapCollect ((env.parameter_map.map (fun e => (e.1, e.2 + bs.length)))
      ++ (bs.enum.map (fun e => (e.2, e.1))))).length
        = env.parameter_map.length + bs.length
      ↔ (keysOf env.parameter_map ++ bs).Nodup := by
    rw [hlen, ← hLlen]
    have h2 := addKeys_length_eq_iff (keysOf env.parameter_map ++ bs) ([] : List PK)
    simp only [List.length_nil, Nat.zero_add] at h2
    rw [h2]
    constructor
    · exact fun h => h.1
    · exact fun h => ⟨h, fun a _ h2 => (List.not_mem_nil a) h2⟩
  have hLnodup : (keysOf env.parameter_map ++ bs).Nodup
      ↔ (bs.Nodup ∧ ∀ b ∈ bs, b ∉ keysOf env.parameter_map) := by
    rw [List.nodup_append]
    constructor
    · rintro ⟨-, hb, hd⟩
      exact ⟨hb, fun b hbs hold => hd hold hbs⟩
    · rintro ⟨hb, hd⟩
      exact ⟨hnd, hb, fun a ha hbs => hd a hbs ha⟩
  have hintro : env.introduce bs =
      (if (mapCollect ((env.parameter_map.map (fun e => (e.1, e.2 + bs.length)))
          ++ (bs.enum.map (fun e => (e.2, e.1))))).length
          ≠ env.parameter_map.length + bs.length then
        Except.error (.msg ("duplicate parameters"))
      else
        Except.ok { env with
          parameter_map := mapCollect ((env.parameter_map.map
              (fun e => (e.1, e.2 + bs.length)))
            ++ (bs.enum.map (fun e => (e.2, e.1)))) }) := rfl
  by_cases hc : (mapCollect ((env.parameter_map.map (fun e => (e.1, e.2 + bs.length)))
      ++ (bs.enum.map (fun e => (e.2, e.1))))).length
      = env.parameter_map.length + bs.length
  · -- successful introduction
    have hok : env.introduce bs = Except.ok { env with
        parameter_map := mapCollect ((env.parameter_map.map
            (fun e => (e.1, e.2 + bs.length)))
          ++ (bs.enum.map (fun e => (e.2, e.1)))) } := by
      rw [hintro, if_neg (not_not_intro hc)]
    have hnodupL : (keysOf env.parameter_map ++ bs).Nodup := hcond.mp hc
    have hgood := hLnodup.mp hnodupL
    refine ⟨?_, ?_, ?_⟩
    · exact iff_of_true ⟨_, hok⟩ hgood
    · intro hbad; exact absurd hgood hbad
    · intro env2 heq
      rw [hok] at heq
      injection heq with heq
      subst heq
      refine ⟨?_, ?_, rfl, rfl, rfl, rfl⟩
      · intro k d hkd
        show mapFind? (mapCollect _) k = _
        unfold mapCollect
        rw [foldIns_append]
        have hkin : k ∈ keysOf env.parameter_map :=
          (mapFind?_isSome env.parameter_map k).mp (by rw [hkd]; rfl)
        have hknotbs : k ∉ keysOf (bs.enum.map (fun e => (e.2, e.1))) := by
          rw [keysOf_newPairs]
          intro hkbs
          exact hgood.2 k hkbs hkin
        rw [mapFind?_foldIns_not_mem _ _ _ hknotbs]
        have hmem : (k, d + bs.length) ∈ env.parameter_map.map
            (fun e => (e.1, e.2 + bs.length)) := by
          have h3 := mapFind?_mem hkd
          exact List.mem_map_of_mem (fun e => (e.1, e.2 + bs.length)) h3
        have hndshift : NodupKeys (env.parameter_map.map
            (fun e => (e.1, e.2 + bs.length))) := by
          unfold NodupKeys
          rw [keysOf_shift]
          exact hnd
        exact mapFind?_foldIns_mem _ _ _ _ hndshift hmem
      · intro p hp
        show mapFind? (mapCollect _) p.2 = _
        have hmem : (p.2, p.1) ∈ (env.parameter_map.map
              (fun e => (e.1, e.2 + bs.length)))
            ++ (bs.enum.map (fun e => (e.2, e.1))) := by
          apply List.mem_append_right
          exact List.mem_map_of_mem (fun e => (e.2, e.1)) hp
        have hndall : NodupKeys ((env.parameter_map.map
              (fun e => (e.1, e.2 + bs.length)))
            ++ (bs.enum.map (fun e => (e.2, e.1)))) := by
          unfold NodupKeys
          rw [hkeys]
          exact hnodupL
        exact mapFind?_foldIns_mem _ _ _ _ hndall hmem
  · -- duplicate keys
    have herr : env.introduce bs = Except.error (.msg ("duplicate parameters")) := by
      rw [hintro, if_pos hc]
    have hbad : ¬ (bs.Nodup ∧ ∀ b ∈ bs, b ∉ keysOf env.parameter_map) := by
      intro hgood
      exact hc (hcond.mpr (hLnodup.mpr hgood))
    refine ⟨?_, fun _ => herr, ?_⟩
    · apply iff_of_false
      · rintro ⟨env2, heq⟩
        rw [herr] at heq
        exact Except.noConfusion heq
      · exact hbad
    · intro env2 heq
      rw [herr] at heq
      exact Except.noConfusion heq

/-- C5: `Env::introduce` (which does not mutate its receiver — it is a pure
function of the old environment here) succeeds exactly when the new binders
are pairwise distinct `(kind, name)` keys and none shadows an existing
parameter; on failure the error is `duplicate parameters`; on success every
existing parameter's depth is shifted by the number of new binders, the new
binders occupy depths `0..len` in iteration order, and all other
environment fields are unchanged. -/
theorem c5_introduce_spec (env : Env) (bs : List PK)
    (hnd : NodupKeys env.parameter_map) :
    ((∃ env2, env.introduce bs = .ok env2) ↔
      (bs.Nodup ∧ ∀ b ∈ bs, b ∉ keysOf env.parameter_map))
    ∧ (¬ (bs.Nodup ∧ ∀ b ∈ bs, b ∉ keysOf env.parameter_map) →
        env.introduce bs = .error (.msg ("duplicate parameters")))
    ∧ (∀ env2, env.introduce bs = .ok env2 →
        (∀ k d, mapFind? env.parameter_map k = some d →
          mapFind? env2.parameter_map k = some (d + bs.length))
        ∧ (∀ p ∈ bs.enum, mapFind? env2.parameter_map p.2 = some p.1)
        ∧ env2.type_ids = env.type_ids
        ∧ env2.type_kinds = env.type_kinds
        ∧ env2.associated_ty_infos = env.associated_ty_infos
        ∧ env2.traits_in_scope = env.traits_in_scope) :=
  introduce_characterization env bs hnd

/-- C5 witness: the characterization applied to a concrete environment with
one parameter `T` and two fresh binders. -/
theorem c5_introduce_spec_witness :
    NodupKeys envW.parameter_map
    ∧ (((∃ env2, envW.introduce bsW = .ok env2) ↔
        (bsW.Nodup ∧ ∀ b ∈ bsW, b ∉ keysOf envW.parameter_map))
      ∧ (¬ (bsW.Nodup ∧ ∀ b ∈ bsW, b ∉ keysOf envW.parameter_map) →
          envW.introduce bsW = .error (.msg ("duplicate parameters")))
      ∧ (∀ env2, envW.introduce bsW = .ok env2 →
          (∀ k d, mapFind? envW.parameter_map k = some d →
            mapFind? env2.parameter_map k = some (d + bsW.length))
          ∧ (∀ p ∈ bsW.enum, mapFind? env2.parameter_map p.2 = some p.1)
          ∧ env2.type_ids = envW.type_ids
          ∧ env2.type_kinds = envW.type_kinds
          ∧ env2.associated_ty_infos = envW.associated_ty_infos
          ∧ env2.traits_in_scope = envW.traits_in_scope)) :=
  ⟨by show (keysOf envW.parameter_map).Nodup; decide,
   c5_introduce_spec envW bsW (by show (keysOf envW.parameter_map).Nodup; decide)⟩

/-! ## C4 -/

/-- C4: lowering a `ProjectionEq` where-clause produces exactly two IR
atoms, in the order `ProjectionEq` first then `Implemented` of the
projection's trait reference; an `Implemented` where-clause produces
exactly one `Implemented` atom. -/
theorem c4_where_clause_atoms (wc : WhereClause) (env : Env)
    (ws : List IrWhereClause) (env2 : Env)
    (h : lowerWhereClause wc env = .ok (ws, env2)) :
    (∀ trait_ref, wc = .implemented trait_ref → ∃ tr,
        lowerTraitRef trait_ref env = .ok (tr, env2)
        ∧ ws = [IrWhereClause.implemented tr] ∧ ws.length = 1)
    ∧ (∀ projection ty, wc = .projectionEq projection ty → ∃ p e1 t e2 tr,
        lowerProjectionTy projection env = .ok (p, e1)
        ∧ lowerTy ty e1 = .ok (t, e2)
        ∧ lowerTraitRef projection.trait_ref e2 = .ok (tr, env2)
        ∧ ws = [IrWhereClause.projectionEq { projection := p, ty := t },
                IrWhereClause.implemented tr]
        ∧ ws.length = 2) := by
  constructor
  · intro trait_ref hwc
    subst hwc
    simp only [lowerWhereClause] at h
    cases htr : lowerTraitRef trait_ref env with
    | error e =>
        rw [htr] at h
        simp [bind, Except.bind] at h
    | ok res =>
        obtain ⟨tr, env3⟩ := res
        rw [htr] at h
        simp only [bind, Except.bind, pure, Except.pure, Except.ok.injEq,
          Prod.mk.injEq] at h
        obtain ⟨h1, h2⟩ := h
        subst h1
        subst h2
        exact ⟨tr, rfl, rfl, rfl⟩
  · intro projection ty hwc
    subst hwc
    simp only [lowerWhereClause] at h
    cases hp : lowerProjectionTy projection env with
    | error e =>
        rw [hp] at h
        simp [bind, Except.bind] at h
    | ok res =>
        obtain ⟨p, e1⟩ := res
        rw [hp] at h
        simp only [bind, Except.bind] at h
        cases ht : lowerTy ty e1 with
        | error e =>
            rw [ht] at h
            simp [bind, Except.bind] at h
        | ok res2 =>
            obtain ⟨t, e2⟩ := res2
            rw [ht] at h
            simp only [bind, Except.bind] at h
            cases htr : lowerTraitRef projection.trait_ref e2 with
            | error e =>
                rw [htr] at h
                simp [bind, Except.bind] at h
            | ok res3 =>
                obtain ⟨tr, e3⟩ := res3
                rw [htr] at h
                simp only [bind, Except.bind, pure, Except.pure, Except.ok.injEq,
                  Prod.mk.injEq] at h
                obtain ⟨h1, h2⟩ := h
                subst h1
                subst h2
                exact ⟨p, e1, t, e2, tr, rfl, ht, htr, rfl, rfl⟩

/-- `Except` bind on an `ok` value steps to the continuation. -/
theorem bindOk {ε α β : Type} (a : α) (f : α → Except ε β) :
    (Except.ok (ε := ε) a >>= f) = f a := rfl

/-- `Except` bind on an `error` value propagates the error. -/
theorem bindErr {ε α β : Type} (e : ε) (f : α → Except ε β) :
    (Except.error (α := α) e >>= f) = Except.error e := rfl

theorem evalIterTy : lowerTy (.id "T") envIter = .ok (.var 0, envIter) := by
  simp only [lowerTy]; rfl

theorem evalIterParamT : lowerParameter (.ty (.id "T")) envIter
    = .ok (.ty (.var 0), envIter) := by
  simp only [lowerParameter, evalIterTy]; rfl

theorem evalIterParamsNil : lowerParameters ([] : List Parameter) envIter
    = .ok ([], envIter) := by
  simp only [lowerParameters]; rfl

theorem evalIterTraitBound : lowerTraitBound ⟨"Iterator", []⟩ envIter
    = .ok (⟨⟨0⟩, []⟩, envIter) := by
  simp only [lowerTraitBound, evalIterParamsNil]; rfl

theorem evalIterTraitRef : lowerTraitRef (.mk "Iterator" [Parameter.ty (.id "T")]) envIter
    = .ok (itrT, envIter2) := by
  simp only [lowerTraitRef, evalIterTraitBound, bindOk, evalIterParamT]; rfl

theorem evalIter2ParamsNil : lowerParameters ([] : List Parameter) envIter2
    = .ok ([], envIter2) := by
  simp only [lowerParameters]; rfl

theorem evalIterProj :
    lowerProjectionTy (.mk (.mk "Iterator" [Parameter.ty (.id "T")]) "Item" []) envIter
    = .ok (.mk ⟨1⟩ [IrParameter.ty (.var 0)], envIter2) := by
  simp only [lowerProjectionTy, evalIterTraitRef, bindOk, evalIter2ParamsNil]; rfl

theorem evalIter2Ty : lowerTy (.id "T") envIter2 = .ok (.var 0, envIter2) := by
  simp only [lowerTy]; rfl

theorem evalIter2TraitBound : lowerTraitBound ⟨"Iterator", []⟩ envIter2
    = .ok (⟨⟨0⟩, []⟩, envIter2) := by
  simp only [lowerTraitBound, evalIter2ParamsNil]; rfl

theorem evalIter2ParamT : lowerParameter (.ty (.id "T")) envIter2
    = .ok (.ty (.var 0), envIter2) := by
  simp only [lowerParameter, evalIter2Ty]; rfl

theorem evalIter2TraitRef : lowerTraitRef (.mk "Iterator" [Parameter.ty (.id "T")]) envIter2
    = .ok (itrT, envIter2) := by
  simp only [lowerTraitRef, evalIter2TraitBound, bindOk, evalIter2ParamT]; rfl

/-- Composition of the three stages of lowering a `ProjectionEq`
where-clause, stated over arbitrary inputs. -/
theorem lowerWhereClause_projectionEq (p : ProjectionTy) (t : Ty) (env e1 e2 e3 : Env)
    (a : IrProjectionTy) (b : IrTy) (c : IrTraitRef)
    (h1 : lowerProjectionTy p env = .ok (a, e1))
    (h2 : lowerTy t e1 = .ok (b, e2))
    (h3 : lowerTraitRef p.trait_ref e2 = .ok (c, e3)) :
    lowerWhereClause (.projectionEq p t) env
      = .ok ([IrWhereClause.projectionEq { projection := a, ty := b },
              IrWhereClause.implemented c], e3) := by
  simp only [lowerWhereClause, h1, bindOk, h2, h3]
  rfl

theorem evalIterWhereClause : lowerWhereClause wcC4 envIter = .ok (wsC4, envIter2) :=
  lowerWhereClause_projectionEq _ _ _ _ _ _ _ _ _ evalIterProj evalIter2Ty evalIter2TraitRef

/-- C4 witness: the where-clause `<T as Iterator>::Item = T` lowered in a
concrete environment yields the two atoms in order. -/
theorem c4_where_clause_atoms_witness :
    lowerWhereClause wcC4 envIter = .ok (wsC4, envIter2)
    ∧ (∃ p e1 t e2 tr,
        lowerProjectionTy projC4 envIter = .ok (p, e1)
        ∧ lowerTy (.id "T") e1 = .ok (t, e2)
        ∧ lowerTraitRef projC4.trait_ref e2 = .ok (tr, envIter2)
        ∧ wsC4 = [IrWhereClause.projectionEq { projection := p, ty := t },
                IrWhereClause.implemented tr]
        ∧ wsC4.length = 2) :=
  ⟨evalIterWhereClause,
   (c4_where_clause_atoms wcC4 envIter wsC4 envIter2 evalIterWhereClause).2
     projC4 (.id "T") rfl⟩

/-! ## C10 -/

/-- C10: `LowerTraitRef::lower` is partial at its interface: once the
trait-bound part (built from all but the first argument) has succeeded, an
empty argument list makes the `args[0]` indexing panic, and a first
argument that lowers to a lifetime makes the `.ty().unwrap()` panic;
neither case returns an ordinary error value. -/
theorem c10_trait_ref_panics (env : Env) :
    (∀ trait_name b env1,
        lowerTraitBound ⟨trait_name, []⟩ env = .ok (b, env1) →
        lowerTraitRef (.mk trait_name []) env
          = .error (.panicked ("index out of bounds")))
    ∧ (∀ trait_name a rest b env1 p env2,
        lowerTraitBound ⟨trait_name, rest⟩ env = .ok (b, env1) →
        lowerParameter a env1 = .ok (p, env2) →
        p.ty? = none →
        lowerTraitRef (.mk trait_name (a :: rest)) env
          = .error (.panicked ("called Option::unwrap on a None value"))) := by
  constructor
  · intro trait_name b env1 hb
    simp only [lowerTraitRef]
    rw [hb]
    simp [bind, Except.bind, throw, throwThe, MonadExceptOf.throw]
  · intro trait_name a rest b env1 p env2 hb hp hpt
    simp only [lowerTraitRef]
    rw [hb]
    simp [bind, Except.bind, hp, hpt, throw, throwThe, MonadExceptOf.throw]

/-- C10 witness: both panic paths reached on concrete inputs over `envF`:
`Foo` with no arguments, and `Foo<'a>` whose `Self` argument is the
lifetime `'a`. -/
theorem c10_trait_ref_panics_witness :
    (lowerTraitBound ⟨"Foo", []⟩ envF = .ok (⟨⟨0⟩, []⟩, envF)
      ∧ lowerTraitRef (.mk "Foo" []) envF = .error (.panicked ("index out of bounds")))
    ∧ (lowerTraitBound ⟨"Foo", []⟩ envFL = .ok (⟨⟨0⟩, []⟩, envFL)
      ∧ lowerParameter (.lifetime (.id "a")) envFL
          = .ok (.lifetime (.var 0), envFL)
      ∧ (IrParameter.lifetime (.var 0)).ty? = none
      ∧ lowerTraitRef (.mk "Foo" [Parameter.lifetime (.id "a")]) envFL
          = .error (.panicked ("called Option::unwrap on a None value"))) := by
  have hb1 : lowerTraitBound ⟨"Foo", []⟩ envF = .ok (⟨⟨0⟩, []⟩, envF) := by
    simp [lowerTraitBound, lowerParameters, Env.lookup, Env.type_kind?, mapFind?, envF,
      Env.empty, Binders.len, checkKindsZip, bind, Except.bind, pure, Except.pure]
  have hb2 : lowerTraitBound ⟨"Foo", []⟩ envFL = .ok (⟨⟨0⟩, []⟩, envFL) := by
    simp [lowerTraitBound, lowerParameters, Env.lookup, Env.type_kind?, mapFind?, envFL, envF,
      Env.empty, Binders.len, checkKindsZip, bind, Except.bind, pure, Except.pure]
  have hp2 : lowerParameter (.lifetime (.id "a")) envFL
      = .ok (.lifetime (.var 0), envFL) := by
    simp [lowerParameter, lowerLifetime, Env.lookup_lifetime, mapFind?, envFL, envF,
      Env.empty, bind, Except.bind, pure, Except.pure]
  exact ⟨⟨hb1, (c10_trait_ref_panics envF).1 "Foo" _ _ hb1⟩,
    ⟨hb2, hp2, rfl,
      (c10_trait_ref_panics envFL).2 "Foo" (.lifetime (.id "a")) [] _ _ _ _ hb2 hp2 rfl⟩⟩

/-! ## C1 -/

/-- C1 counterexample: lowering the unselected projection type `Item` in an
environment with zero in-scope candidates succeeds, producing an
`ir::UnselectedProjectionTy` wrapped as `Ty::UnselectedProjection` — type
lowering neither resolves it to a `ProjectionTy` nor raises the ambiguity
error the claim requires for a candidate count other than one. -/
theorem c1_unselected_counterexample :
    (unselectedCandidates envE ⟨"Item", []⟩).length = 0
    ∧ lowerTy (.unselectedProjection uItem) envE
        = .ok (.unselectedProjection (.mk "Item" []), envE)
    ∧ (∀ q env2, lowerTy (.unselectedProjection uItem) envE ≠ .ok (.projection q, env2)) := by
  have h2 : lowerTy (.unselectedProjection uItem) envE
      = .ok (.unselectedProjection (.mk "Item" []), envE) := by
    simp [lowerTy, lowerUnselectedProjectionTy, lowerParameters, uItem, envE, Env.empty,
      bind, Except.bind, pure, Except.pure]
  refine ⟨rfl, h2, ?_⟩
  intro q env2 hq
  rw [h2] at hq
  simp at hq

/-- C1 (amended): type lowering of an unselected projection `Name<args>`
only lowers the args and rebuilds an `ir::UnselectedProjectionTy` — it does
not call `Env::resolve_unselected_projection_ty`.  The resolver itself,
when invoked, succeeds exactly on a singleton candidate list (name-matching
associated types whose owning trait is in `traits_in_scope`), producing the
`ProjectionTy` whose id is the unique candidate's and whose parameters are
the unselected parameters followed by the in-scope trait reference's
parameters, and fails with the ambiguity error whenever the candidate count
is not exactly one. -/
theorem c1_unselected_projection_spec :
    (∀ (p : UnselectedProjectionTy) (env : Env) (ps : List IrParameter) (env2 : Env),
        lowerParameters p.args env = .ok (ps, env2) →
        lowerTy (.unselectedProjection p) env
          = .ok (.unselectedProjection (.mk p.name ps), env2))
    ∧ (∀ (env : Env) (u : IrUnselectedProjectionTy) (tr : IrTraitRef) (i : ItemId),
        unselectedCandidates env u = [(tr, i)] →
        env.resolve_unselected_projection_ty u
          = .ok (.mk i (u.parameters ++ tr.parameters)))
    ∧ (∀ (env : Env) (u : IrUnselectedProjectionTy),
        (unselectedCandidates env u).length ≠ 1 →
        env.resolve_unselected_projection_ty u
          = .error (.msg ("ambiguous associated ty " ++ u.type_name))) := by
  refine ⟨?_, ?_, ?_⟩
  · intro p env ps env2 hps
    obtain ⟨name, args⟩ := p
    simp only [lowerTy, lowerUnselectedProjectionTy]
    simp only [UnselectedProjectionTy.args] at hps
    rw [hps]
    simp [bind, Except.bind, pure, Except.pure, UnselectedProjectionTy.name]
  · intro env u tr i hc
    unfold Env.resolve_unselected_projection_ty
    rw [hc]
  · intro env u hlen
    unfold Env.resolve_unselected_projection_ty
    rcases hc : unselectedCandidates env u with _ | ⟨c, rest⟩
    · rfl
    · rcases rest with _ | ⟨c2, rest2⟩
      · exfalso
        rw [hc] at hlen
        simp at hlen
      · rfl

/-- C1 witness: the three amended facts at concrete inputs — unresolved
lowering over the empty environment, successful resolution with the single
candidate of `envC1`, and the ambiguity error with zero candidates. -/
theorem c1_unselected_projection_spec_witness :
    (lowerParameters uItem.args envE = .ok ([], envE)
      ∧ lowerTy (.unselectedProjection uItem) envE
          = .ok (.unselectedProjection (.mk uItem.name []), envE))
    ∧ (unselectedCandidates envC1 ⟨"Item", []⟩ = [(⟨⟨0⟩, []⟩, ⟨1⟩)]
      ∧ envC1.resolve_unselected_projection_ty ⟨"Item", []⟩
          = .ok (.mk ⟨1⟩ ((⟨"Item", []⟩ : IrUnselectedProjectionTy).parameters
              ++ (⟨⟨0⟩, []⟩ : IrTraitRef).parameters)))
    ∧ ((unselectedCandidates envE ⟨"Item", []⟩).length ≠ 1
      ∧ envE.resolve_unselected_projection_ty ⟨"Item", []⟩
          = .error (.msg ("ambiguous associated ty "
              ++ (⟨"Item", []⟩ : IrUnselectedProjectionTy).type_name))) := by
  have hps : lowerParameters uItem.args envE = .ok ([], envE) := by
    simp [lowerParameters, uItem, UnselectedProjectionTy.args, pure, Except.pure]
  have hc : unselectedCandidates envC1 ⟨"Item", []⟩ = [(⟨⟨0⟩, []⟩, ⟨1⟩)] := rfl
  have hlen : (unselectedCandidates envE ⟨"Item", []⟩).length ≠ 1 := by decide
  exact ⟨⟨hps, c1_unselected_projection_spec.1 uItem envE [] envE hps⟩,
    ⟨hc, c1_unselected_projection_spec.2.1 envC1 ⟨"Item", []⟩ ⟨⟨0⟩, []⟩ ⟨1⟩ hc⟩,
    ⟨hlen, c1_unselected_projection_spec.2.2 envE ⟨"Item", []⟩ hlen⟩⟩

/-! ## C3 -/

theorem evalFTyS : lowerTy (.id "S") envF = .ok (.apply (.mk (.itemId ⟨1⟩) []), envF) := by
  simp only [lowerTy]; rfl

theorem evalFParamS : lowerParameter (.ty (.id "S")) envF
    = .ok (.ty (.apply (.mk (.itemId ⟨1⟩) [])), envF) := by
  simp only [lowerParameter, evalFTyS]; rfl

theorem evalFParamsNil : lowerParameters ([] : List Parameter) envF = .ok ([], envF) := by
  simp only [lowerParameters]; rfl

theorem evalFTraitBound : lowerTraitBound ⟨"Foo", []⟩ envF = .ok (⟨⟨0⟩, []⟩, envF) := by
  simp only [lowerTraitBound, evalFParamsNil]; rfl

theorem evalFTraitRef : lowerTraitRef (.mk "Foo" [Parameter.ty (.id "S")]) envF
    = .ok (trC3, envF3) := by
  simp only [lowerTraitRef, evalFTraitBound, bindOk, evalFParamS]; rfl

theorem evalFPolarized : lowerPolarizedTraitRef (.positive (.mk "Foo" [Parameter.ty (.id "S")])) envF
    = .ok (.positive trC3, envF3) := by
  simp only [lowerPolarizedTraitRef, evalFTraitRef, bindOk]; rfl

/-- `lower_impl` when the introduced binders and the trait reference
succeed, the positivity guard passes, the where-clauses lower, and lowering
the associated-type values fails: the error propagates, stated over
arbitrary inputs. -/
theorem lower_impl_assoc_error (i : Impl) (env env1 e2 e3 : Env)
    (ptr : IrPolarizedTraitRef) (wcs : List IrQuantifiedWhereClause) (err : LowerErr)
    (h0 : env.introduce i.all_parameters = .ok env1)
    (h1 : lowerPolarizedTraitRef i.trait_ref env1 = .ok (ptr, e2))
    (h2 : (!ptr.is_positive && !i.assoc_ty_values.isEmpty) = false)
    (h3 : lowerQuantifiedWhereClauses i.where_clauses e2 = .ok (wcs, e3))
    (h4 : lowerAssocTyValues i.assoc_ty_values ptr.trait_ref.trait_id e3 = .error err) :
    lower_impl i env = .error err := by
  simp only [lower_impl, Env.in_binders, h0, bindOk, h1, h2, h3, h4, bindErr]
  rfl

theorem evalImplC3 : lower_impl implC3 envF
    = .error (.panicked ("called Option::unwrap on a None value")) :=
  lower_impl_assoc_error implC3 envF envF envF3 envF3 (.positive trC3) [] _
    rfl evalFPolarized rfl rfl rfl

/-- C3 counterexample: the impl `implC3` of the associated-type-free trait
`Foo` has a successfully lowering trait reference, yet supplying the
undeclared associated-type name `Item` makes `lower_impl` hit the
`get_assoc_ty_info(...).unwrap()` panic instead of succeeding. -/
theorem c3_assoc_value_unwrap_counterexample :
    lowerPolarizedTraitRef implC3.trait_ref envF = .ok (.positive trC3, envF3)
    ∧ lower_impl implC3 envF = .error (.panicked ("called Option::unwrap on a None value")) :=
  ⟨evalFPolarized, evalImplC3⟩

/-- C3 (amended): the associated-type-info lookup performed while lowering
an impl's associated-type value succeeds exactly when `(trait_id, name)` is
a declared associated type of the trait: when the info is absent the
`unwrap` panics, and when it is present lowering proceeds with that info's
id. -/
theorem c3_assoc_value_unwrap_spec (v : AssocTyValue) (trait_id : ItemId) (env : Env) :
    (env.get_assoc_ty_info (trait_id, v.name) = none →
      lowerAssocTyValue v trait_id env
        = .error (.panicked ("called Option::unwrap on a None value")))
    ∧ (∀ info, env.get_assoc_ty_info (trait_id, v.name) = some info →
      lowerAssocTyValue v trait_id env
        = (env.in_binders v.all_parameters (fun env2 => do
            let (t, env3) ← lowerTy v.value env2
            pure (({ ty := t } : AssociatedTyValueBound), env3))).map
          (fun value => { associated_ty_id := info.id, value := value })) := by
  constructor
  · intro hn
    unfold lowerAssocTyValue
    rw [hn]
    simp [bind, Except.bind, throw, throwThe, MonadExceptOf.throw]
  · intro info hi
    unfold lowerAssocTyValue
    rw [hi]
    simp only [bind, Except.bind, pure, Except.pure]
    cases hbi : env.in_binders v.all_parameters (fun env2 => do
        let (t, env3) ← lowerTy v.value env2
        pure (({ ty := t } : AssociatedTyValueBound), env3)) with
    | error e => simp [Except.map]
    | ok b => simp [Except.map]

/-- C3 witness: the lookup fails and the value lowering panics for the
undeclared name `Item` over `envF`; it succeeds for the declared `Item` of
`envIter`. -/
theorem c3_assoc_value_unwrap_spec_witness :
    (envF.get_assoc_ty_info (⟨0⟩, vC3a.name) = none
      ∧ lowerAssocTyValue vC3a ⟨0⟩ envF
          = .error (.panicked ("called Option::unwrap on a None value")))
    ∧ (envIter.get_assoc_ty_info (⟨0⟩, vC3b.name) = some ⟨⟨1⟩, []⟩
      ∧ lowerAssocTyValue vC3b ⟨0⟩ envIter
          = (envIter.in_binders vC3b.all_parameters (fun env2 => do
              let (t, env3) ← lowerTy vC3b.value env2
              pure (({ ty := t } : AssociatedTyValueBound), env3))).map
            (fun value => { associated_ty_id := (⟨⟨1⟩, []⟩ : AssociatedTyInfo).id,
                            value := value })) := by
  have hn : envF.get_assoc_ty_info (⟨0⟩, vC3a.name) = none := rfl
  have hi : envIter.get_assoc_ty_info (⟨0⟩, vC3b.name) = some ⟨⟨1⟩, []⟩ := rfl
  exact ⟨⟨hn, (c3_assoc_value_unwrap_spec vC3a ⟨0⟩ envF).1 hn⟩,
    ⟨hi, (c3_assoc_value_unwrap_spec vC3b ⟨0⟩ envIter).2 ⟨⟨1⟩, []⟩ hi⟩⟩

/-! ## C6 -/

theorem except_bind_eq_ok {ε α β : Type} (e : Except ε α) (f : α → Except ε β) (v : β) :
    (e >>= f) = .ok v ↔ ∃ a, e = .ok a ∧ f a = .ok v := by
  cases e <;> simp [bind, Except.bind]

/-- C6: every successfully produced `AssociatedTyDatum` has
`parameter_kinds` equal to the associated type's own additional parameters
followed by the enclosing trait's parameters, the trait's synthetic `Self`
included (and first). -/
theorem c6_assoc_ty_datum_parameter_kinds (trait_item_id : ItemId) (d : TraitDefn)
    (defn : AssocTyDefn) (info : AssociatedTyInfo) (env : Env)
    (datum : AssociatedTyDatum)
    (h : lowerAssocTyDatum trait_item_id d defn info env = .ok datum) :
    datum.parameter_kinds = defn.all_parameters ++ d.all_parameters
    ∧ d.all_parameters = ParameterKind.ty SELF :: d.parameter_kinds := by
  refine ⟨?_, rfl⟩
  simp only [lowerAssocTyDatum] at h
  rw [except_bind_eq_ok] at h
  obtain ⟨env1, -, h⟩ := h
  rw [except_bind_eq_ok] at h
  obtain ⟨⟨bounds, env2⟩, -, h⟩ := h
  rw [except_bind_eq_ok] at h
  obtain ⟨⟨wcs, env3⟩, -, h⟩ := h
  simp only [pure, Except.pure, Except.ok.injEq] at h
  rw [← h]

/-- C6 witness: the datum of `Item<U>` in `trait Foo<T>` evaluated
concretely. -/
theorem c6_assoc_ty_datum_parameter_kinds_witness :
    lowerAssocTyDatum ⟨0⟩ dC6 aC6 infoC6 envE = .ok datumC6
    ∧ (datumC6.parameter_kinds = aC6.all_parameters ++ dC6.all_parameters
      ∧ dC6.all_parameters = ParameterKind.ty SELF :: dC6.parameter_kinds) := by
  have h : lowerAssocTyDatum ⟨0⟩ dC6 aC6 infoC6 envE = .ok datumC6 := by rfl
  exact ⟨h, c6_assoc_ty_datum_parameter_kinds ⟨0⟩ dC6 aC6 infoC6 envE datumC6 h⟩

/-! ## C9 -/

theorem lowerWhereClause_ne_nil (wc : WhereClause) (env env2 : Env) :
    lowerWhereClause wc env ≠ .ok ([], env2) := by
  intro h
  cases wc with
  | implemented trait_ref =>
      simp only [lowerWhereClause] at h
      rw [except_bind_eq_ok] at h
      obtain ⟨⟨tr, e3⟩, -, h⟩ := h
      simp [pure, Except.pure] at h
  | projectionEq projection ty =>
      simp only [lowerWhereClause] at h
      rw [except_bind_eq_ok] at h
      obtain ⟨⟨p, e1⟩, -, h⟩ := h
      rw [except_bind_eq_ok] at h
      obtain ⟨⟨t, e2⟩, -, h⟩ := h
      rw [except_bind_eq_ok] at h
      obtain ⟨⟨tr, e3⟩, -, h⟩ := h
      simp [pure, Except.pure] at h

theorem lowerDomainGoal_ne_nil (g : DomainGoal) (env env2 : Env) :
    lowerDomainGoal g env ≠ .ok ([], env2) := by
  intro h
  cases g with
  | holds where_clause =>
      simp only [lowerDomainGoal] at h
      rw [except_bind_eq_ok] at h
      obtain ⟨⟨ws, e3⟩, hws, h⟩ := h
      simp only [pure, Except.pure, Except.ok.injEq, Prod.mk.injEq] at h
      obtain ⟨h1, -⟩ := h
      rw [List.map_eq_nil] at h1
      subst h1
      exact lowerWhereClause_ne_nil where_clause env e3 hws
  | normalize projection ty =>
      simp only [lowerDomainGoal] at h
      rw [except_bind_eq_ok] at h
      obtain ⟨⟨p, e1⟩, -, h⟩ := h
      rw [except_bind_eq_ok] at h
      obtain ⟨⟨t, e2⟩, -, h⟩ := h
      simp [pure, Except.pure] at h
  | tyWellFormed ty =>
      simp only [lowerDomainGoal] at h
      rw [except_bind_eq_ok] at h
      obtain ⟨⟨t, e1⟩, -, h⟩ := h
      simp [pure, Except.pure] at h
  | traitRefWellFormed trait_ref =>
      simp only [lowerDomainGoal] at h
      rw [except_bind_eq_ok] at h
      obtain ⟨⟨tr, e1⟩, -, h⟩ := h
      simp [pure, Except.pure] at h
  | tyFromEnv ty =>
      simp only [lowerDomainGoal] at h
      rw [except_bind_eq_ok] at h
      obtain ⟨⟨t, e1⟩, -, h⟩ := h
      simp [pure, Except.pure] at h
  | traitRefFromEnv trait_ref =>
      simp only [lowerDomainGoal] at h
      rw [except_bind_eq_ok] at h
      obtain ⟨⟨tr, e1⟩, -, h⟩ := h
      simp [pure, Except.pure] at h
  | traitInScope trait_name =>
      simp only [lowerDomainGoal] at h
      rw [except_bind_eq_ok] at h
      obtain ⟨r, -, h⟩ := h
      cases r with
      | parameter d =>
          simp [bind, Except.bind, throw, throwThe, MonadExceptOf.throw] at h
      | type id =>
          simp only [bind, Except.bind, pure, Except.pure] at h
          cases hk : env.type_kind? id with
          | none =>
              rw [hk] at h
              simp [throw, throwThe, MonadExceptOf.throw, bind, Except.bind] at h
          | some k =>
              rw [hk] at h
              by_cases hs : k.sort ≠ TypeSort.trait
              · simp [hs] at h
              · simp [hs] at h
  | derefs source target =>
      simp only [lowerDomainGoal] at h
      rw [except_bind_eq_ok] at h
      obtain ⟨⟨s, e1⟩, -, h⟩ := h
      rw [except_bind_eq_ok] at h
      obtain ⟨⟨t, e2⟩, -, h⟩ := h
      simp [pure, Except.pure] at h
  | isLocal ty =>
      simp only [lowerDomainGoal] at h
      rw [except_bind_eq_ok] at h
      obtain ⟨⟨t, e1⟩, -, h⟩ := h
      simp [pure, Except.pure] at h
  | isExternal ty =>
      simp only [lowerDomainGoal] at h
      rw [except_bind_eq_ok] at h
      obtain ⟨⟨t, e1⟩, -, h⟩ := h
      simp [pure, Except.pure] at h
  | isDeeplyExternal ty =>
      simp only [lowerDomainGoal] at h
      rw [except_bind_eq_ok] at h
      obtain ⟨⟨t, e1⟩, -, h⟩ := h
      simp [pure, Except.pure] at h
  | localImplAllowed trait_ref =>
      simp only [lowerDomainGoal] at h
      rw [except_bind_eq_ok] at h
      obtain ⟨⟨tr, e1⟩, -, h⟩ := h
      simp [pure, Except.pure] at h

/-- C9: lowering a leaf goal never yields an empty list of IR leaves, so
the `expect("at least one goal")` in the `Goal::Leaf` arm is unreachable:
the `fold1` always produces a goal, and with exactly one IR leaf the result
is that leaf with no `And` wrapper. -/
theorem c9_leaf_goal_fold (l : LeafGoal) (env : Env) :
    (∀ env2, lowerLeafGoal l env ≠ .ok ([], env2))
    ∧ (∀ ls env2, lowerLeafGoal l env = .ok (ls, env2) →
        (∃ g, fold1 (ls.map IrGoal.leaf) IrGoal.and = some g
          ∧ lowerGoal (.leaf l) env = .ok (g, env2))
        ∧ (∀ x, ls = [x] → lowerGoal (.leaf l) env = .ok (.leaf x, env2))) := by
  have h1 : ∀ env2, lowerLeafGoal l env ≠ .ok ([], env2) := by
    intro env2 h
    cases l with
    | domainGoal goal =>
        simp only [lowerLeafGoal] at h
        rw [except_bind_eq_ok] at h
        obtain ⟨⟨gs, e1⟩, hgs, h⟩ := h
        simp only [pure, Except.pure, Except.ok.injEq, Prod.mk.injEq] at h
        obtain ⟨h2, -⟩ := h
        rw [List.map_eq_nil] at h2
        subst h2
        exact lowerDomainGoal_ne_nil goal env e1 hgs
    | unifyTys a b =>
        simp only [lowerLeafGoal] at h
        rw [except_bind_eq_ok] at h
        obtain ⟨⟨ta, e1⟩, -, h⟩ := h
        rw [except_bind_eq_ok] at h
        obtain ⟨⟨tb, e2⟩, -, h⟩ := h
        simp [pure, Except.pure] at h
    | unifyLifetimes a b =>
        simp only [lowerLeafGoal] at h
        rw [except_bind_eq_ok] at h
        obtain ⟨la, -, h⟩ := h
        rw [except_bind_eq_ok] at h
        obtain ⟨lb, -, h⟩ := h
        simp [pure, Except.pure] at h
  refine ⟨h1, ?_⟩
  intro ls env2 h
  rcases ls with _ | ⟨x, rest⟩
  · exact absurd h (h1 env2)
  · constructor
    · refine ⟨(rest.map IrGoal.leaf).foldl IrGoal.and (IrGoal.leaf x), rfl, ?_⟩
      simp only [lowerGoal]
      rw [h]
      simp [bind, Except.bind, pure, Except.pure, fold1]
    · intro x2 hx2
      rw [List.cons.injEq] at hx2
      obtain ⟨hx, hrest⟩ := hx2
      subst hx
      subst hrest
      simp only [lowerGoal]
      rw [h]
      simp [bind, Except.bind, pure, Except.pure, fold1]

/-- C9 witness: the unify leaf `T = T` lowers to exactly one `EqGoal` leaf
and goal lowering wraps it in no `And`. -/
theorem c9_leaf_goal_fold_witness :
    lowerLeafGoal lC9 envIter = .ok ([eqC9], envIter)
    ∧ ((∃ g, fold1 ([eqC9].map IrGoal.leaf) IrGoal.and = some g
          ∧ lowerGoal (.leaf lC9) envIter = .ok (g, envIter))
      ∧ (∀ x, [eqC9] = [x] →
          lowerGoal (.leaf lC9) envIter = .ok (.leaf x, envIter))) := by
  have h : lowerLeafGoal lC9 envIter = .ok ([eqC9], envIter) := by
    simp [lowerLeafGoal, lC9, eqC9, lowerTy, envIter, Env.lookup, mapFind?,
      bind, Except.bind, pure, Except.pure]
  exact ⟨h, (c9_leaf_goal_fold lC9 envIter).2 [eqC9] envIter h⟩

/-! ## C7 -/

/-- C7: every custom-clause lowering emits, per lowered consequence, one
`ProgramClauseImplication` whose `conditions` are the reversal of the
textually ordered lowered conditions, wrapped as `Implies` when the clause
declares no binders and as `ForAll` otherwise. -/
theorem c7_clause_conditions_reversed (c : Clause) (env : Env)
    (cs : List IrProgramClause) (h : lowerClause c env = .ok cs) :
    ∃ env1 conseqs env2 conds env3,
      env.introduce c.all_parameters = .ok env1
      ∧ lowerDomainGoal c.consequence env1 = .ok (conseqs, env2)
      ∧ lowerGoalList c.conditions env2 = .ok (conds, env3)
      ∧ cs = conseqs.map (fun q =>
          if c.parameter_kinds.isEmpty then
            IrProgramClause.implies (.mk q conds.reverse)
          else IrProgramClause.forAllC
            { binders := anonymize c.all_parameters, value := .mk q conds.reverse }) := by
  obtain ⟨pks, conseq, conds0⟩ := c
  simp only [lowerClause] at h
  rw [except_bind_eq_ok] at h
  obtain ⟨env1, hi, h⟩ := h
  rw [except_bind_eq_ok] at h
  obtain ⟨⟨conseqs, env2⟩, hc2, h⟩ := h
  rw [except_bind_eq_ok] at h
  obtain ⟨⟨conds, env3⟩, hc3, h⟩ := h
  simp only [pure, Except.pure, Except.ok.injEq] at h
  refine ⟨env1, conseqs, env2, conds, env3, hi, hc2, hc3, ?_⟩
  rw [← h, List.map_map]
  have hempty : (anonymize pks).isEmpty = pks.isEmpty := by
    cases pks <;> rfl
  simp [Function.comp, hempty, Clause.all_parameters, Clause.parameter_kinds]

/-- C7 witness: the binder-free clause `WellFormed(S) :- S = S` lowered
concretely: one implication, `Implies`-wrapped, with the (singleton, hence
trivially reversed) condition list. -/
theorem c7_clause_conditions_reversed_witness :
    lowerClause clauseC7 envF = .ok csC7
    ∧ (∃ env1 conseqs env2 conds env3,
        envF.introduce clauseC7.all_parameters = .ok env1
        ∧ lowerDomainGoal clauseC7.consequence env1 = .ok (conseqs, env2)
        ∧ lowerGoalList clauseC7.conditions env2 = .ok (conds, env3)
        ∧ csC7 = conseqs.map (fun q =>
            if clauseC7.parameter_kinds.isEmpty then
              IrProgramClause.implies (.mk q conds.reverse)
            else IrProgramClause.forAllC
              { binders := anonymize clauseC7.all_parameters,
                value := .mk q conds.reverse })) := by
  have h : lowerClause clauseC7 envF = .ok csC7 := by
    simp [lowerClause, clauseC7, csC7, sApp, envF, Env.empty, Env.introduce, mapCollect,
      foldIns, mapInsert, mapFind?, Clause.all_parameters, Clause.parameter_kinds,
      anonymize, lowerDomainGoal, lowerGoalList, lowerGoal, lowerLeafGoal, lowerTy,
      Env.lookup, Env.type_kind?, Binders.len, fold1,
      bind, Except.bind, pure, Except.pure]
  exact ⟨h, c7_clause_conditions_reversed clauseC7 envF csC7 h⟩

/-! ## C8 -/

theorem parameter_refs_length (d : TraitDefn) :
    d.parameter_refs.length = d.parameter_kinds.length + 1 := by
  simp [TraitDefn.parameter_refs, anonymize, TraitDefn.all_parameters]

/-- C8 counterexample: the auto trait `A<X, X>` has a declared parameter
beyond `Self`, yet `lower_trait` fails with `duplicate parameters` (binder
introduction runs before the auto checks), not with
`auto trait cannot have parameters` as the unconditional claim requires. -/
theorem c8_auto_trait_counterexample :
    lower_trait ⟨0⟩ dC8 envE = .error (.msg ("duplicate parameters"))
    ∧ lower_trait ⟨0⟩ dC8 envE ≠ .error (.msg ("auto trait cannot have parameters")) := by
  have h : lower_trait ⟨0⟩ dC8 envE = .error (.msg ("duplicate parameters")) := by rfl
  refine ⟨h, ?_⟩
  rw [h]
  intro hbad
  simp at hbad

/-- C8 (amended): over the driver's empty environment, an auto trait whose
binder keys (`Self` plus declared) are pairwise distinct fails with `auto
trait cannot have parameters` whenever it declares any parameter beyond
`Self` (with duplicated binder keys the earlier `duplicate parameters`
error wins); an auto trait with `Self` only and a nonempty where-clause
list fails with `auto trait cannot have where clauses`; the driver's first
traversal rejects an auto trait declaring associated types with `auto
trait cannot define associated types`; and a non-auto trait is subject to
none of these: its `lower_trait` equals the computation with the auto
guard removed and the driver's check passes. -/
theorem c8_auto_trait_checks :
    (∀ (d : TraitDefn) (id : ItemId) (env : Env),
      env.parameter_map = [] → d.flags.auto = true → d.all_parameters.Nodup →
      d.parameter_kinds ≠ [] →
      lower_trait id d env = .error (.msg ("auto trait cannot have parameters")))
    ∧ (∀ (d : TraitDefn) (id : ItemId) (env : Env),
      env.parameter_map = [] → d.flags.auto = true → d.parameter_kinds = [] →
      d.where_clauses ≠ [] →
      lower_trait id d env = .error (.msg ("auto trait cannot have where clauses")))
    ∧ (∀ (d : TraitDefn) (item_id : ItemId) (next : Nat)
        (acc : List ((ItemId × Identifier) × AssociatedTyInfo)),
      d.flags.auto = true → d.assoc_ty_defns ≠ [] →
      collectAssocTyInfosForTrait d item_id next acc
        = .error (.msg ("auto trait cannot define associated types")))
    ∧ (∀ (d : TraitDefn) (id : ItemId) (env : Env), d.flags.auto = false →
      lower_trait id d env = lower_trait_unchecked id d env)
    ∧ (∀ (d : TraitDefn) (item_id : ItemId) (next : Nat)
        (acc : List ((ItemId × Identifier) × AssociatedTyInfo)),
      d.flags.auto = false →
      collectAssocTyInfosForTrait d item_id next acc
        = .ok (buildAssocInfos d item_id next acc)) := by
  refine ⟨?_, ?_, ?_, ?_, ?_⟩
  · intro d id env hpm hauto hnodup hne
    have hnd : NodupKeys env.parameter_map := by
      unfold NodupKeys
      rw [hpm]
      exact List.nodup_nil
    have hex : ∃ env2, env.introduce d.all_parameters = .ok env2 :=
      (introduce_characterization env d.all_parameters hnd).1.mpr
        ⟨hnodup, by intro b _; rw [hpm]; simp [keysOf]⟩
    obtain ⟨env2, hok⟩ := hex
    have hlen : d.parameter_refs.length > 1 := by
      rw [parameter_refs_length]
      have h2 : 0 < d.parameter_kinds.length := List.length_pos.mpr hne
      omega
    simp only [lower_trait, Env.in_binders]
    rw [hok]
    simp [hauto, hlen, bind, Except.bind, pure, Except.pure, throw, throwThe,
      MonadExceptOf.throw]
  · intro d id env hpm hauto hdecl hwc
    have hnd : NodupKeys env.parameter_map := by
      unfold NodupKeys
      rw [hpm]
      exact List.nodup_nil
    have hnodup : d.all_parameters.Nodup := by
      simp [TraitDefn.all_parameters, hdecl]
    have hex : ∃ env2, env.introduce d.all_parameters = .ok env2 :=
      (introduce_characterization env d.all_parameters hnd).1.mpr
        ⟨hnodup, by intro b _; rw [hpm]; simp [keysOf]⟩
    obtain ⟨env2, hok⟩ := hex
    have hlen : ¬ (d.parameter_refs.length > 1) := by
      rw [parameter_refs_length, hdecl]
      simp
    have hwcE : d.where_clauses.isEmpty = false := by
      cases hw : d.where_clauses with
      | nil => exact absurd hw hwc
      | cons a l => rfl
    simp only [lower_trait, Env.in_binders]
    rw [hok]
    simp [hauto, hlen, hwcE, bind, Except.bind, pure, Except.pure, throw, throwThe,
      MonadExceptOf.throw]
  · intro d item_id next acc hauto hne
    have hneE : d.assoc_ty_defns.isEmpty = false := by
      cases hw : d.assoc_ty_defns with
      | nil => exact absurd hw hne
      | cons a l => rfl
    simp [collectAssocTyInfosForTrait, hauto, hneE]
  · intro d id env hauto
    simp [lower_trait, lower_trait_unchecked, hauto, bind, Except.bind, pure, Except.pure]
  · intro d item_id next acc hauto
    simp [collectAssocTyInfosForTrait, hauto]

/-- C8 witness: all five amended facts at concrete inputs: the auto traits
`A<X>` (extra parameter), `A` with a where-clause, `A` with an associated
type, and the non-auto trait `Foo<T>`. -/
theorem c8_auto_trait_checks_witness :
    (envE.parameter_map = [] ∧ dC8b.flags.auto = true ∧ dC8b.all_parameters.Nodup
      ∧ dC8b.parameter_kinds ≠ []
      ∧ lower_trait ⟨0⟩ dC8b envE = .error (.msg ("auto trait cannot have parameters")))
    ∧ (dC8c.flags.auto = true ∧ dC8c.parameter_kinds = [] ∧ dC8c.where_clauses ≠ []
      ∧ lower_trait ⟨0⟩ dC8c envE = .error (.msg ("auto trait cannot have where clauses")))
    ∧ (dC8d.flags.auto = true ∧ dC8d.assoc_ty_defns ≠ []
      ∧ collectAssocTyInfosForTrait dC8d ⟨0⟩ 1 []
          = .error (.msg ("auto trait cannot define associated types")))
    ∧ (dC6.flags.auto = false
      ∧ lower_trait ⟨0⟩ dC6 envE = lower_trait_unchecked ⟨0⟩ dC6 envE
      ∧ collectAssocTyInfosForTrait dC6 ⟨0⟩ 1 []
          = .ok (buildAssocInfos dC6 ⟨0⟩ 1 [])) := by
  have hnodup : dC8b.all_parameters.Nodup := by decide
  have hne : dC8b.parameter_kinds ≠ [] := by decide
  have hwc : dC8c.where_clauses ≠ [] := by simp [dC8c]
  have hassoc : dC8d.assoc_ty_defns ≠ [] := by simp [dC8d]
  exact ⟨⟨rfl, rfl, hnodup, hne, c8_auto_trait_checks.1 dC8b ⟨0⟩ envE rfl rfl hnodup hne⟩,
    ⟨rfl, rfl, hwc, c8_auto_trait_checks.2.1 dC8c ⟨0⟩ envE rfl rfl rfl hwc⟩,
    ⟨rfl, hassoc, c8_auto_trait_checks.2.2.1 dC8d ⟨0⟩ 1 [] rfl hassoc⟩,
    ⟨rfl, c8_auto_trait_checks.2.2.2.1 dC6 ⟨0⟩ envE rfl,
      c8_auto_trait_checks.2.2.2.2 dC6 ⟨0⟩ 1 [] rfl⟩⟩

end Chalk
